import Mathlib

/-!
Verification of the borrowing / fine / reservation lifecycle engine of the
librarymgt MERN repository.

The definitions below are a shallow embedding of the Node/Express controllers
and Mongoose models of the repository:

* `issueBook`, `returnBook`, `extendDueDate` and the overdue query filter come
  from `nodesetup/controller/authorController.js` (the transaction controller
  part of that file) and `nodesetup/models/transaction.js`;
* `updateBookAvailability` comes from `nodesetup/controller/bookController.js`
  and the book save validation from `nodesetup/models/book.js`;
* `processFinePayment`, `waiveFine`, `updateFine`, `deleteFine` and
  `outstandingTotal` come from the fine controller, with the fine save
  validation and `pre('save')` hook from the Fine schema (`models/fine.js`,
  found among the concatenated model sources);
* `createReservation`, `cancelReservation`, `fulfillReservation`,
  `autoExpireReservations` and `updateReservationPriorities` come from the
  reservation controller, with the reservation save validation from the
  reservation model.

The MongoDB document store is modelled as lists of records inside a state
record `St`.  `Model.findById` / `findOne` become `List.find?` on those lists,
`Model.create` prepends a fresh record (ids are unique in the real store, and
`find?` by a fresh id sees the new record first), `doc.save()` replaces the
record with the same id after running the schema validators and the
`pre('save')` hooks of the model, and a failing save leaves the stored record
unchanged (the thrown error is reported through the operation's result).
Dates are integers (milliseconds since the epoch, as produced by `Date`
arithmetic in JavaScript); the wall clock is an explicit `now` argument.
All monetary amounts appearing in the verified claims are integers, so `Int`
is an exact model of the JavaScript number arithmetic involved.
-/

namespace LibMgt

/-- Roles delivered by the identity provider (`admin`/`librarian`/`borrower`). -/
inductive Role where
  | admin | librarian | borrower
deriving DecidableEq

/-- User account status enum (`active`/`inactive`) from the User schema; the
circulation controllers only test `user.status !== 'active'`. -/
inductive UserStatus where
  | active | inactive
deriving DecidableEq

/-- The subset of the User document used by the circulation controllers. -/
structure User where
  id : Nat
  status : UserStatus
  role : Role
deriving DecidableEq

/-- Book status enum from `models/book.js`. -/
inductive BookStatus where
  | available | unavailable | maintenance
deriving DecidableEq

/-- The copy-pool subset of the Book document (`models/book.js`). -/
structure Book where
  id : Nat
  totalCopies : Int
  availableCopies : Int
  status : BookStatus
deriving DecidableEq

/-- Transaction status enum from `models/transaction.js`. -/
inductive TxStatus where
  | issued | returned | overdue | lost
deriving DecidableEq

/-- The Loan (Transaction) document, `models/transaction.js`. -/
structure Transaction where
  id : Nat
  userId : Nat
  bookId : Nat
  issueDate : Int
  dueDate : Int
  returnDate : Option Int
  fineAmount : Int
  status : TxStatus
  issuedBy : Nat
  returnedBy : Option Nat
  notes : Option String
deriving DecidableEq

/-- Fine reasons (`overdue`, `damage`, `lost`, `other`). -/
inductive FineReason where
  | overdue | damage | lost | other
deriving DecidableEq

/-- Fine payment status enum. -/
inductive PayStatus where
  | pending | paid | waived
deriving DecidableEq

/-- The Fine document, as used by the fine controller. -/
structure Fine where
  id : Nat
  userId : Nat
  transactionId : Nat
  amount : Int
  reason : FineReason
  paymentStatus : PayStatus
  paymentDate : Option Int
  paymentMethod : Option String
  processedBy : Option Nat
  notes : Option String
deriving DecidableEq

/-- Reservation status enum from `models/reservation.js`. -/
inductive ResStatus where
  | active | fulfilled | expired | cancelled
deriving DecidableEq

/-- The Reservation document, `models/reservation.js`. -/
structure Reservation where
  id : Nat
  userId : Nat
  bookId : Nat
  reservationDate : Int
  expiryDate : Int
  status : ResStatus
  priority : Nat
  fulfilledBy : Option Nat
  fulfilledDate : Option Int
deriving DecidableEq

/-- The document store: one list per collection plus a fresh-id counter. -/
structure St where
  users : List User
  books : List Book
  transactions : List Transaction
  fines : List Fine
  reservations : List Reservation
  nextId : Nat
deriving DecidableEq

/-! ### Generic list-as-collection helpers (Mongo `findById` / `save` / `findByIdAndDelete`) -/

/-- `Model.findById` on a collection, with `key` extracting the document id. -/
def findById (key : α → Nat) (l : List α) (i : Nat) : Option α :=
  l.find? (fun x => key x == i)

/-- Effect of `doc.save()` on the collection: the document with the saved
document's id is overwritten in place. -/
def replaceById (key : α → Nat) : List α → Nat → α → List α
  | [], _, _ => []
  | x :: xs, i, y => if key x == i then y :: xs else x :: replaceById key xs i y

/-- `Model.findByIdAndDelete`: the document with the given id is removed. -/
def removeById (key : α → Nat) : List α → Nat → List α
  | [], _ => []
  | x :: xs, i => if key x == i then xs else x :: removeById key xs i

def findUser (st : St) (i : Nat) : Option User := findById User.id st.users i
def findBook (st : St) (i : Nat) : Option Book := findById Book.id st.books i
def findTransaction (st : St) (i : Nat) : Option Transaction :=
  findById Transaction.id st.transactions i
def findFine (st : St) (i : Nat) : Option Fine := findById Fine.id st.fines i
def findReservation (st : St) (i : Nat) : Option Reservation :=
  findById Reservation.id st.reservations i

/-! ### Save-time validation

Mongoose runs the schema validators plus the model's `pre('save')` hooks on
every `save` / `create`; a validation error rejects the write and the stored
document is unchanged. -/

/-- Book save validation: schema `min: 0` on `totalCopies` and
`availableCopies`, plus the `pre('save')` hook of `models/book.js` rejecting
`availableCopies > totalCopies`. -/
def validBook (b : Book) : Bool :=
  decide (0 ≤ b.totalCopies) && decide (0 ≤ b.availableCopies) &&
    decide (b.availableCopies ≤ b.totalCopies)

/-- Transaction save validation: the `pre('save')` hook of
`models/transaction.js` rejecting a `returnDate` before `issueDate`, plus the
schema `min: 0` on `fineAmount`. -/
def validTransaction (t : Transaction) : Bool :=
  (match t.returnDate with
   | some rd => decide (t.issueDate ≤ rd)
   | none => true) && decide (0 ≤ t.fineAmount)

/-- Reservation save validation: the `pre('save')` hook of
`models/reservation.js` rejecting `expiryDate <= reservationDate`, plus the
schema `min: 1` on `priority`. -/
def validReservation (r : Reservation) : Bool :=
  decide (r.reservationDate < r.expiryDate) && decide (1 ≤ r.priority)

/-- Fine save validation, from the Fine schema (`models/fine.js`, found in
the concatenated model sources): schema `min: 0` on `amount`, and the
`paymentMethod` enum (`cash`/`card`/`online`/`check`) when the field is
present; the `reason` and `paymentStatus` enums are enforced by their Lean
types. -/
def validFine (f : Fine) : Bool :=
  decide (0 ≤ f.amount) &&
    (match f.paymentMethod with
     | some m => m == "cash" || m == "card" || m == "online" || m == "check"
     | none => true)

/-- The `pre('save')` hook of the Fine schema: a fine saved with
`paymentStatus = paid` and no `paymentDate` gets stamped with the current
date.  The hook never rejects a save; Mongoose runs it after validation. -/
def fineHookStamp (now : Int) (f : Fine) : Fine :=
  if f.paymentStatus = PayStatus.paid ∧ f.paymentDate = none
  then { f with paymentDate := some now } else f

/-! ### Circulation State Machine (transaction controller) -/

/-- Result of `issueBook`; the error constructors mirror the distinct error
responses of the controller, in source order. -/
inductive IssueResult where
  /-- 201: transaction created; carries the new transaction id. -/
  | ok (txId : Nat)
  /-- 404 "User not found". -/
  | userNotFound
  /-- 400 "User account is not active". -/
  | userInactive
  /-- 404 "Book not found". -/
  | bookNotFound
  /-- 400 "Book is not available for borrowing". -/
  | bookUnavailable
  /-- 400 "User already has this book issued". -/
  | duplicateLoan
  /-- 400 "User has reached the borrowing limit of N books". -/
  | limitExceeded (limit : Nat)
  /-- 400 "User has outstanding fines. ...". -/
  | outstandingFine
  /-- a `save` threw after earlier writes were committed (500). -/
  | saveFailed
deriving DecidableEq

/-- `user.role === 'borrower' ? 5 : 10`. -/
def borrowingLimit (r : Role) : Nat := if r = Role.borrower then 5 else 10

/-- `issueBook` from the transaction controller: the precondition checks in
source order, then `Transaction.create` followed by the book decrement and
`book.save()`. -/
def issueBook (st : St) (now : Int) (userId bookId : Nat) (dueDate : Int)
    (staffId : Nat) : IssueResult × St :=
  match findUser st userId with
  | none => (.userNotFound, st)
  | some user =>
    if user.status ≠ UserStatus.active then (.userInactive, st)
    else
      match findBook st bookId with
      | none => (.bookNotFound, st)
      | some book =>
        if book.availableCopies ≤ 0 ∨ book.status ≠ BookStatus.available then
          (.bookUnavailable, st)
        else if st.transactions.any (fun t =>
            t.userId == userId && t.bookId == bookId && t.status == TxStatus.issued) then
          (.duplicateLoan, st)
        else
          let activeTransactions := (st.transactions.filter (fun t =>
            t.userId == userId && t.status == TxStatus.issued)).length
          let limit := borrowingLimit user.role
          if activeTransactions ≥ limit then (.limitExceeded limit, st)
          else if st.fines.any (fun f =>
              f.userId == userId && f.paymentStatus == PayStatus.pending) then
            (.outstandingFine, st)
          else
            let tx : Transaction :=
              { id := st.nextId, userId := userId, bookId := bookId,
                issueDate := now, dueDate := dueDate, returnDate := none,
                fineAmount := 0, status := TxStatus.issued, issuedBy := staffId,
                returnedBy := none, notes := none }
            if validTransaction tx then
              let st1 := { st with transactions := tx :: st.transactions,
                                   nextId := st.nextId + 1 }
              let book1 := { book with availableCopies := book.availableCopies - 1 }
              if validBook book1 then
                (.ok st.nextId,
                  { st1 with books := replaceById Book.id st1.books bookId book1 })
              else (.saveFailed, st1)
            else (.saveFailed, st)

/-- Result of `returnBook`: on success it carries the computed fine amount
(the controller reports `fineAmount > 0 ? fineAmount : null`). -/
inductive ReturnResult where
  | ok (fineAmount : Int)
  | txNotFound
  | notIssued
  | saveFailed
deriving DecidableEq

/-- One day in milliseconds, `1000 * 60 * 60 * 24`. -/
def msPerDay : Int := 1000 * 60 * 60 * 24

/-- `Math.ceil((returnDate - dueDate) / (1000*60*60*24))` for a positive
difference of integer timestamps. -/
def overdueDaysOf (returnDate dueDate : Int) : Int :=
  (returnDate - dueDate + msPerDay - 1) / msPerDay

/-- Tail of `returnBook` after the overdue/fine step: save the updated
transaction, then increment and save the book (source lines 381-392 of the
transaction controller). -/
def finishReturn (st : St) (tx : Transaction) (now : Int) (fineAmount : Int)
    (staffId : Nat) (notes : String) : ReturnResult × St :=
  let tx' := { tx with returnDate := some now, status := TxStatus.returned,
                       fineAmount := fineAmount, returnedBy := some staffId,
                       notes := some notes }
  if validTransaction tx' then
    let st2 := { st with transactions := replaceById Transaction.id st.transactions tx.id tx' }
    match findBook st2 tx.bookId with
    | none => (.saveFailed, st2)
    | some book =>
      let book' := { book with availableCopies := book.availableCopies + 1 }
      if validBook book' then
        (.ok fineAmount,
          { st2 with books := replaceById Book.id st2.books tx.bookId book' })
      else (.saveFailed, st2)
  else (.saveFailed, st)

/-- `returnBook` from the transaction controller: look up the transaction,
require status `issued`, compute the fine for a late return and create the
fine record, then update the transaction and release the copy. -/
def returnBook (st : St) (now : Int) (txId staffId : Nat) (notes : String) :
    ReturnResult × St :=
  match findTransaction st txId with
  | none => (.txNotFound, st)
  | some tx =>
    if tx.status ≠ TxStatus.issued then (.notIssued, st)
    else
      if tx.dueDate < now then
        let overdueDays := overdueDaysOf now tx.dueDate
        let fineAmount := overdueDays * 1
        let fine : Fine :=
          { id := st.nextId, userId := tx.userId, transactionId := tx.id,
            amount := fineAmount, reason := FineReason.overdue,
            paymentStatus := PayStatus.pending, paymentDate := none,
            paymentMethod := none, processedBy := none, notes := none }
        if validFine fine then
          finishReturn { st with fines := fineHookStamp now fine :: st.fines, nextId := st.nextId + 1 }
            tx now fineAmount staffId notes
        else (.saveFailed, st)
      else
        finishReturn st tx now 0 staffId notes

/-- Result of `updateBookAvailability`. -/
inductive UpdateAvailResult where
  | ok
  | bookNotFound
  | saveFailed
deriving DecidableEq

/-- `updateBookAvailability` from the book controller: overwrite whichever of
`totalCopies` / `availableCopies` the request supplies, then `book.save()`. -/
def updateBookAvailability (st : St) (bookId : Nat)
    (availableCopies totalCopies : Option Int) : UpdateAvailResult × St :=
  match findBook st bookId with
  | none => (.bookNotFound, st)
  | some book =>
    let b1 := match totalCopies with
      | some t => { book with totalCopies := t }
      | none => book
    let b2 := match availableCopies with
      | some a => { b1 with availableCopies := a }
      | none => b1
    if validBook b2 then
      (.ok, { st with books := replaceById Book.id st.books bookId b2 })
    else (.saveFailed, st)

/-- Result of `extendDueDate`. -/
inductive ExtendResult where
  | ok (newDueDate : Int)
  | txNotFound
  | notIssued
  | saveFailed
deriving DecidableEq

/-- The audit note appended by `extendDueDate` (the controller's ternary on
`transaction.notes`). -/
def extendNote (notes : Option String) (reason : String) : String :=
  match notes with
  | some n => n ++ "\nDue date extended: " ++ reason
  | none => "Due date extended: " ++ reason

/-- `extendDueDate` from the transaction controller: require status `issued`,
then overwrite `dueDate` with the request's `newDueDate` (no validation of the
new date) and append an audit note. -/
def extendDueDate (st : St) (txId : Nat) (newDueDate : Int) (reason : String) :
    ExtendResult × St :=
  match findTransaction st txId with
  | none => (.txNotFound, st)
  | some tx =>
    if tx.status ≠ TxStatus.issued then (.notIssued, st)
    else
      let tx' := { tx with dueDate := newDueDate,
                           notes := some (extendNote tx.notes reason) }
      if validTransaction tx' then
        (.ok newDueDate,
          { st with transactions := replaceById Transaction.id st.transactions txId tx' })
      else (.saveFailed, st)

/-- The query-time overdue predicate used by `getOverdueTransactions` and the
`overdue=true` filter of `getAllTransactions`: `status = issued` and
`dueDate < now`. -/
def isOverdue (now : Int) (t : Transaction) : Bool :=
  t.status == TxStatus.issued && decide (t.dueDate < now)

/-- `totalOutstanding` from `getUserOutstandingFines` in the fine controller:
the sum of `amount` over the user's fines with `paymentStatus = pending`. -/
def outstandingTotal (st : St) (userId : Nat) : Int :=
  ((st.fines.filter (fun f =>
      f.userId == userId && f.paymentStatus == PayStatus.pending)).map
    (fun f => f.amount)).sum

/-! ### Fine Calculator (fine controller) -/

/-- Result of `processFinePayment`. -/
inductive PayResult where
  | ok
  | notFound
  /-- 400 "Fine is already paid". -/
  | alreadyPaid
  /-- 400 "Fine has been waived". -/
  | alreadyWaived
  | saveFailed
deriving DecidableEq

/-- `processFinePayment`: reject a paid or waived fine, otherwise mark the
fine paid, stamp `paymentDate`, `paymentMethod`, `processedBy` and append a
payment note. -/
def processFinePayment (st : St) (now : Int) (fineId : Nat)
    (paymentMethod : String) (staffId : Nat) (notes : Option String) :
    PayResult × St :=
  match findFine st fineId with
  | none => (.notFound, st)
  | some fine =>
    if fine.paymentStatus = PayStatus.paid then (.alreadyPaid, st)
    else if fine.paymentStatus = PayStatus.waived then (.alreadyWaived, st)
    else
      let fine' := { fine with
        paymentStatus := PayStatus.paid,
        paymentDate := some now,
        paymentMethod := some paymentMethod,
        processedBy := some staffId,
        notes := match notes with
          | some n => some ((fine.notes.getD "") ++ "\nPayment: " ++ n)
          | none => fine.notes }
      if validFine fine' then
        (.ok, { st with fines := replaceById Fine.id st.fines fineId (fineHookStamp now fine') })
      else (.saveFailed, st)

/-- Result of `waiveFine`. -/
inductive WaiveResult where
  | ok
  | notFound
  /-- 400 "Cannot waive a paid fine". -/
  | cannotWaivePaid
  /-- 400 "Fine is already waived". -/
  | alreadyWaived
  | saveFailed
deriving DecidableEq

/-- `waiveFine`: reject a paid or already waived fine, otherwise mark the fine
waived, stamp `processedBy` and append a waive note (`now` is the handler's
wall clock, consumed only by the fine save hook). -/
def waiveFine (st : St) (now : Int) (fineId : Nat) (reason : String)
    (staffId : Nat) : WaiveResult × St :=
  match findFine st fineId with
  | none => (.notFound, st)
  | some fine =>
    if fine.paymentStatus = PayStatus.paid then (.cannotWaivePaid, st)
    else if fine.paymentStatus = PayStatus.waived then (.alreadyWaived, st)
    else
      let fine' := { fine with
        paymentStatus := PayStatus.waived,
        processedBy := some staffId,
        notes := match fine.notes with
          | some n => some (n ++ "\nWaived: " ++ reason)
          | none => some ("Waived: " ++ reason) }
      if validFine fine' then
        (.ok, { st with fines := replaceById Fine.id st.fines fineId (fineHookStamp now fine') })
      else (.saveFailed, st)

/-- Result of `updateFine`. -/
inductive UpdateFineResult where
  | ok
  | notFound
  /-- 400 "Cannot update a paid fine". -/
  | cannotUpdatePaid
  | saveFailed
deriving DecidableEq

/-- `updateFine`: only a paid fine is rejected; otherwise `amount`, `reason`
and `notes` are overwritten with whichever values the request supplies
(`now` is the handler's wall clock, consumed only by the fine save hook). -/
def updateFine (st : St) (now : Int) (fineId : Nat) (amount : Option Int)
    (reason : Option FineReason) (notes : Option String) :
    UpdateFineResult × St :=
  match findFine st fineId with
  | none => (.notFound, st)
  | some fine =>
    if fine.paymentStatus = PayStatus.paid then (.cannotUpdatePaid, st)
    else
      let fine' := { fine with
        amount := amount.getD fine.amount,
        reason := reason.getD fine.reason,
        notes := match notes with
          | some n => some n
          | none => fine.notes }
      if validFine fine' then
        (.ok, { st with fines := replaceById Fine.id st.fines fineId (fineHookStamp now fine') })
      else (.saveFailed, st)

/-- Result of `deleteFine`. -/
inductive DeleteFineResult where
  | ok
  | notFound
  /-- 400 "Cannot delete a paid fine". -/
  | cannotDeletePaid
deriving DecidableEq

/-- `deleteFine`: only a paid fine is rejected; otherwise the fine record is
removed with `Fine.findByIdAndDelete`. -/
def deleteFine (st : St) (fineId : Nat) : DeleteFineResult × St :=
  match findFine st fineId with
  | none => (.notFound, st)
  | some fine =>
    if fine.paymentStatus = PayStatus.paid then (.cannotDeletePaid, st)
    else (.ok, { st with fines := removeById Fine.id st.fines fineId })

/-! ### Reservation Queue (reservation controller) -/

/-- Result of `createReservation`. -/
inductive ReserveResult where
  /-- 201: reservation created; carries the new id and the queue position. -/
  | ok (resId : Nat) (queuePosition : Nat)
  | bookNotFound
  /-- 400 "Book is currently available. No need to reserve.". -/
  | bookAvailable
  /-- 400 "You already have an active reservation for this book". -/
  | duplicateReservation
  /-- 400 "You currently have this book issued". -/
  | alreadyHolding
  /-- 400 "You have reached the reservation limit of N books". -/
  | limitExceeded (limit : Nat)
  | saveFailed
deriving DecidableEq

/-- `req.user.role === 'borrower' ? 3 : 5`. -/
def reservationLimit (r : Role) : Nat := if r = Role.borrower then 3 else 5

/-- `createReservation`: the precondition checks in source order, then the
queue position is computed as the current active-reservation count for the
book plus one and the reservation is created with that `priority`.  The
caller's identity (`req.user`) is passed as `userId` / `role`. -/
def createReservation (st : St) (now : Int) (userId : Nat) (role : Role)
    (bookId : Nat) (expiryDate : Int) : ReserveResult × St :=
  match findBook st bookId with
  | none => (.bookNotFound, st)
  | some book =>
    if 0 < book.availableCopies ∧ book.status = BookStatus.available then
      (.bookAvailable, st)
    else if st.reservations.any (fun r =>
        r.userId == userId && r.bookId == bookId && r.status == ResStatus.active) then
      (.duplicateReservation, st)
    else if st.transactions.any (fun t =>
        t.userId == userId && t.bookId == bookId && t.status == TxStatus.issued) then
      (.alreadyHolding, st)
    else
      let activeReservations := (st.reservations.filter (fun r =>
        r.userId == userId && r.status == ResStatus.active)).length
      let limit := reservationLimit role
      if activeReservations ≥ limit then (.limitExceeded limit, st)
      else
        let queuePosition := (st.reservations.filter (fun r =>
          r.bookId == bookId && r.status == ResStatus.active)).length + 1
        let res : Reservation :=
          { id := st.nextId, userId := userId, bookId := bookId,
            reservationDate := now, expiryDate := expiryDate,
            status := ResStatus.active, priority := queuePosition,
            fulfilledBy := none, fulfilledDate := none }
        if validReservation res then
          (.ok st.nextId queuePosition,
            { st with reservations := res :: st.reservations,
                      nextId := st.nextId + 1 })
        else (.saveFailed, st)

/-- Insertion of one reservation into a list sorted by `reservationDate`
ascending (model of the Mongo sort; ties are resolved arbitrarily by the
store and nothing verified here depends on their order). -/
def insertByDate (r : Reservation) : List Reservation → List Reservation
  | [] => [r]
  | x :: xs =>
    if r.reservationDate ≤ x.reservationDate then r :: x :: xs
    else x :: insertByDate r xs

/-- `.sort({ reservationDate: 1 })` on a fetched list. -/
def sortByResDate : List Reservation → List Reservation
  | [] => []
  | x :: xs => insertByDate x (sortByResDate xs)

/-- Pair each fetched document with its loop index `i`. -/
def withIdx : List Reservation → Nat → List (Reservation × Nat)
  | [], _ => []
  | x :: xs, i => (x, i) :: withIdx xs (i + 1)

/-- The body of the re-ranking loop of `updateReservationPriorities`: for each
fetched document in order, set `priority = i + 1` and `save()` it; a failing
save throws and aborts the loop with the earlier saves already committed. -/
def rerankLoop : List (Reservation × Nat) → List Reservation → List Reservation
  | [], store => store
  | (r, i) :: rest, store =>
    let r' := { r with priority := i + 1 }
    if validReservation r' then
      rerankLoop rest (replaceById Reservation.id store r.id r')
    else store

/-- `updateReservationPriorities` (reservation controller, helper at the end
of the file): fetch the book's active reservations sorted by
`reservationDate` ascending and save each with `priority = i + 1`. -/
def updateReservationPriorities (st : St) (bookId : Nat) : St :=
  let activeReservations := sortByResDate (st.reservations.filter (fun r =>
    r.bookId == bookId && r.status == ResStatus.active))
  { st with reservations := rerankLoop (withIdx activeReservations 0) st.reservations }

/-- Result of `cancelReservation`. -/
inductive CancelResult where
  | ok
  | notFound
  /-- 403 "Access denied". -/
  | accessDenied
  /-- 400 "Can only cancel active reservations". -/
  | notActive
  | saveFailed
deriving DecidableEq

/-- `cancelReservation`: owner-or-staff check, require status `active`, mark
cancelled, then re-rank the book's remaining active reservations. -/
def cancelReservation (st : St) (resId actorId : Nat) (actorRole : Role) :
    CancelResult × St :=
  match findReservation st resId with
  | none => (.notFound, st)
  | some r =>
    let isOwner := r.userId == actorId
    let isStaff := actorRole == Role.admin || actorRole == Role.librarian
    if !isOwner && !isStaff then (.accessDenied, st)
    else if r.status ≠ ResStatus.active then (.notActive, st)
    else
      let r' := { r with status := ResStatus.cancelled }
      if validReservation r' then
        let st1 := { st with reservations := replaceById Reservation.id st.reservations resId r' }
        (.ok, updateReservationPriorities st1 r.bookId)
      else (.saveFailed, st)

/-- Result of `fulfillReservation`. -/
inductive FulfillResult where
  | ok
  | notFound
  /-- 400 "Can only fulfill active reservations". -/
  | notActive
  /-- the book referenced by the reservation is missing: the controller
  dereferences `book.availableCopies` on `null` and throws (500). -/
  | bookMissing
  /-- 400 "Book is not available". -/
  | notAvailable
  | saveFailed
deriving DecidableEq

/-- `fulfillReservation`: require status `active` and the book to have a copy
available, mark fulfilled with `fulfilledBy`/`fulfilledDate`, then re-rank. -/
def fulfillReservation (st : St) (now : Int) (resId staffId : Nat) :
    FulfillResult × St :=
  match findReservation st resId with
  | none => (.notFound, st)
  | some r =>
    if r.status ≠ ResStatus.active then (.notActive, st)
    else
      match findBook st r.bookId with
      | none => (.bookMissing, st)
      | some book =>
        if book.availableCopies ≤ 0 then (.notAvailable, st)
        else
          let r' := { r with status := ResStatus.fulfilled,
                             fulfilledBy := some staffId,
                             fulfilledDate := some now }
          if validReservation r' then
            let st1 := { st with reservations := replaceById Reservation.id st.reservations resId r' }
            (.ok, updateReservationPriorities st1 r.bookId)
          else (.saveFailed, st)

/-- `autoExpireReservations`: a single `Reservation.updateMany` setting every
active reservation with `expiryDate < now` to `expired` (an update query:
no `pre('save')` hooks run, and no re-ranking is performed).  Returns the
modified count. -/
def autoExpireReservations (st : St) (now : Int) : Nat × St :=
  let expires := fun (r : Reservation) =>
    r.status == ResStatus.active && decide (r.expiryDate < now)
  ((st.reservations.filter expires).length,
    { st with reservations := st.reservations.map (fun r =>
        if expires r then { r with status := ResStatus.expired } else r) })

/-! ### Derived notions used by the verified claims -/

/-- The copy-pool invariant of the spec: `0 ≤ availableCopies ≤ totalCopies`. -/
def BookInv (b : Book) : Prop :=
  0 ≤ b.availableCopies ∧ b.availableCopies ≤ b.totalCopies

instance (b : Book) : Decidable (BookInv b) := by
  unfold BookInv
  infer_instance

/-- A sequential circulation operation on the store (request arguments
included), for stating invariants over arbitrary operation sequences. -/
inductive CircOp where
  | issue (now : Int) (userId bookId : Nat) (dueDate : Int) (staffId : Nat)
  | bookReturn (now : Int) (txId staffId : Nat) (notes : String)
  | updateAvail (bookId : Nat) (availableCopies totalCopies : Option Int)

/-- Run one circulation operation, keeping only the resulting store. -/
def applyCircOp (st : St) : CircOp → St
  | .issue now u b d s => (issueBook st now u b d s).2
  | .bookReturn now t s n => (returnBook st now t s n).2
  | .updateAvail b a t => (updateBookAvailability st b a t).2

/-- Run a sequence of circulation operations left to right. -/
def applyCircOps (st : St) (ops : List CircOp) : St := ops.foldl applyCircOp st

/-- A sequential reservation-queue operation (request arguments included). -/
inductive ResOp where
  | create (now : Int) (userId : Nat) (role : Role) (bookId : Nat) (expiryDate : Int)
  | cancel (resId actorId : Nat) (actorRole : Role)
  | fulfill (now : Int) (resId staffId : Nat)
  | autoExpire (now : Int)

/-- Run one reservation operation, keeping only the resulting store. -/
def applyResOp (st : St) : ResOp → St
  | .create now u role b e => (createReservation st now u role b e).2
  | .cancel r a role => (cancelReservation st r a role).2
  | .fulfill now r s => (fulfillReservation st now r s).2
  | .autoExpire now => (autoExpireReservations st now).2

/-- Run a sequence of reservation operations left to right. -/
def applyResOps (st : St) (ops : List ResOp) : St := ops.foldl applyResOp st

/-- The book's active reservations (the re-ranked set). -/
def activeFor (st : St) (bookId : Nat) : List Reservation :=
  st.reservations.filter (fun r => r.bookId == bookId && r.status == ResStatus.active)

/-- The priorities of the book's active reservations. -/
def activePrios (st : St) (bookId : Nat) : List Nat :=
  (activeFor st bookId).map (fun r => r.priority)

/-- The queue-rank invariant of the spec: for every book, the priorities of
its active reservations are exactly `1..N` (as a multiset), `N` being the
number of active reservations of that book. -/
def PrioInv (st : St) : Prop :=
  ∀ bookId, (activePrios st bookId).Perm (List.range' 1 (activePrios st bookId).length)

/-- Well-formedness of the reservation store: ids are below the fresh-id
counter and pairwise distinct (Mongo object ids are unique), every stored
reservation passes its own save validation (true of every reservation the
API ever stored), and the queue-rank invariant holds. -/
def GoodRes (st : St) : Prop :=
  (∀ r ∈ st.reservations, r.id < st.nextId) ∧
  (st.reservations.map Reservation.id).Nodup ∧
  (∀ r ∈ st.reservations, validReservation r = true) ∧
  PrioInv st

/-! ### Lemmas about the collection helpers -/

theorem findById_some_key {key : α → Nat} {l : List α} {i : Nat} {x : α}
    (h : findById key l i = some x) : key x = i := by
  have h' : l.find? (fun x => key x == i) = some x := h
  simpa using List.find?_some h'

theorem mem_of_findById {key : α → Nat} {l : List α} {i : Nat} {x : α}
    (h : findById key l i = some x) : x ∈ l := by
  have h' : l.find? (fun x => key x == i) = some x := h
  exact List.mem_of_find?_eq_some h'

theorem mem_replaceById {key : α → Nat} {l : List α} {i : Nat} {y x : α}
    (h : x ∈ replaceById key l i y) : x ∈ l ∨ x = y := by
  induction l with
  | nil => simp [replaceById] at h
  | cons a as ih =>
    simp only [replaceById] at h
    by_cases hk : (key a == i) = true
    · rw [if_pos hk] at h
      rcases List.mem_cons.mp h with h1 | h1
      · exact Or.inr h1
      · exact Or.inl (List.mem_cons_of_mem _ h1)
    · rw [if_neg hk] at h
      rcases List.mem_cons.mp h with h1 | h1
      · exact Or.inl (h1 ▸ List.mem_cons_self a as)
      · rcases ih h1 with h2 | h2
        · exact Or.inl (List.mem_cons_of_mem _ h2)
        · exact Or.inr h2

theorem findById_replaceById_self {key : α → Nat} {l : List α} {i : Nat}
    {x : α} (y : α) (hl : findById key l i = some x) (hy : key y = i) :
    findById key (replaceById key l i y) i = some y := by
  induction l with
  | nil => simp [findById] at hl
  | cons a as ih =>
    by_cases hk : (key a == i) = true
    · simp only [replaceById, if_pos hk, findById]
      rw [List.find?_cons_of_pos]
      simp [hy]
    · have hfind : findById key as i = some x := by
        have h' : findById key (a :: as) i = some x := hl
        simp only [findById] at h' ⊢
        rwa [List.find?_cons_of_neg _ (by simp_all)] at h'
      simp only [replaceById, if_neg hk, findById]
      rw [List.find?_cons_of_neg _ (by simp_all)]
      exact ih hfind

theorem findById_replaceById_ne {key : α → Nat} {l : List α} {i j : Nat}
    {y : α} (hy : key y = i) (hne : j ≠ i) :
    findById key (replaceById key l i y) j = findById key l j := by
  induction l with
  | nil => simp [replaceById]
  | cons a as ih =>
    by_cases hk : (key a == i) = true
    · have hka : key a = i := by simpa using hk
      simp only [replaceById, if_pos hk, findById]
      rw [List.find?_cons_of_neg _ (by simp [hy, Ne.symm hne]),
        List.find?_cons_of_neg _ (by simp [hka, Ne.symm hne])]
    · simp only [replaceById, if_neg hk, findById] at ih ⊢
      by_cases hj : (key a == j) = true
      · simp only [List.find?_cons, hj]
      · have hj' : (key a == j) = false := by
          cases h : (key a == j) with
          | true => exact absurd h hj
          | false => rfl
        simp only [List.find?_cons, hj']
        exact ih

theorem map_key_replaceById {key : α → Nat} {l : List α} {i : Nat} {y : α}
    (hy : key y = i) : (replaceById key l i y).map key = l.map key := by
  induction l with
  | nil => simp [replaceById]
  | cons a as ih =>
    by_cases hk : (key a == i) = true
    · have hka : key a = i := by simpa using hk
      simp [replaceById, if_pos hk, hy, hka]
    · have hka : ¬ key a = i := by simpa using hk
      simp [replaceById, hka, ih]

theorem findById_of_mem_nodup {key : α → Nat} {l : List α} {x : α}
    (hnd : (l.map key).Nodup) (hx : x ∈ l) : findById key l (key x) = some x := by
  induction l with
  | nil => cases hx
  | cons a as ih =>
    rcases List.mem_cons.mp hx with rfl | hx'
    · simp only [findById]
      rw [List.find?_cons_of_pos _ (by simp)]
    · have hnd' := List.nodup_cons.mp (by simpa only [List.map_cons] using hnd)
      have hne : key a ≠ key x := by
        intro he
        exact hnd'.1 (he ▸ List.mem_map_of_mem key hx')
      simp only [findById]
      rw [List.find?_cons_of_neg _ (by simp [hne])]
      exact ih hnd'.2 hx'

theorem eq_of_mem_same_key {key : α → Nat} {l : List α} {x y : α}
    (hnd : (l.map key).Nodup) (hx : x ∈ l) (hy : y ∈ l) (hk : key x = key y) :
    x = y := by
  have h1 := findById_of_mem_nodup hnd hx
  have h2 := findById_of_mem_nodup hnd hy
  rw [hk, h2] at h1
  exact (Option.some_injective _ h1).symm

/-! ### Lemmas about the re-ranking loop of `updateReservationPriorities` -/

theorem insertByDate_perm (r : Reservation) (l : List Reservation) :
    (insertByDate r l).Perm (r :: l) := by
  induction l with
  | nil => simp [insertByDate]
  | cons x xs ih =>
    simp only [insertByDate]
    by_cases h : r.reservationDate ≤ x.reservationDate
    · rw [if_pos h]
    · rw [if_neg h]
      exact (ih.cons x).trans (List.Perm.swap r x xs)

theorem sortByResDate_perm (l : List Reservation) : (sortByResDate l).Perm l := by
  induction l with
  | nil => simp [sortByResDate]
  | cons x xs ih =>
    simp only [sortByResDate]
    exact (insertByDate_perm x (sortByResDate xs)).trans (ih.cons x)

theorem mapFst_withIdx (l : List Reservation) (k : Nat) :
    (withIdx l k).map Prod.fst = l := by
  induction l generalizing k with
  | nil => simp [withIdx]
  | cons x xs ih => simp [withIdx, ih]

theorem fst_mem_of_mem_withIdx {l : List Reservation} {k : Nat}
    {p : Reservation × Nat} (h : p ∈ withIdx l k) : p.1 ∈ l := by
  have := List.mem_map_of_mem Prod.fst h
  rwa [mapFst_withIdx] at this

/-- Specification function for the re-ranking loop: the document whose id
matches a fetched pair is overwritten with that pair's updated version. -/
def applyPairs (pairs : List (Reservation × Nat)) (x : Reservation) : Reservation :=
  match pairs.find? (fun p => p.1.id == x.id) with
  | some (r, i) => { r with priority := i + 1 }
  | none => x

theorem applyPairs_nil (x : Reservation) : applyPairs [] x = x := rfl

theorem applyPairs_cons_ne (r : Reservation) (i : Nat)
    (rest : List (Reservation × Nat)) {x : Reservation} (h : r.id ≠ x.id) :
    applyPairs ((r, i) :: rest) x = applyPairs rest x := by
  simp only [applyPairs, List.find?_cons]
  have h' : (r.id == x.id) = false := by simp [h]
  rw [h']

theorem applyPairs_not_found {pairs : List (Reservation × Nat)}
    {x : Reservation} (h : ∀ p ∈ pairs, p.1.id ≠ x.id) :
    applyPairs pairs x = x := by
  simp only [applyPairs]
  rw [List.find?_eq_none.mpr (by intro p hp; simp [h p hp])]

/-- The single-save effect: replacing the unique document carrying `r.id` and
then mapping `g` is the same as mapping a function `h` that agrees with `g`
away from `r.id` and sends `r` to `g r'`. -/
theorem map_replaceById_eq {store : List Reservation} {r r' : Reservation}
    (g h : Reservation → Reservation)
    (hnd : (store.map Reservation.id).Nodup)
    (hfind : findById Reservation.id store r.id = some r)
    (hgh : ∀ x, x.id ≠ r.id → g x = h x)
    (hr : g r' = h r) :
    (replaceById Reservation.id store r.id r').map g = store.map h := by
  induction store with
  | nil => simp [findById] at hfind
  | cons a as ih =>
    by_cases hk : (a.id == r.id) = true
    · have ha : a = r := by
        have h' : findById Reservation.id (a :: as) r.id = some a := by
          simp only [findById, List.find?_cons, hk]
        rw [h'] at hfind
        exact Option.some_injective _ hfind
      simp only [replaceById, if_pos hk, List.map_cons]
      rw [hr, ← ha]
      congr 1
      apply List.map_congr_left
      intro x hx
      apply hgh
      intro he
      have hnd' := List.nodup_cons.mp (by simpa only [List.map_cons] using hnd)
      have hae : a.id = r.id := by simpa using hk
      exact hnd'.1 (by rw [hae, ← he]; exact List.mem_map_of_mem Reservation.id hx)
    · have hk' : (a.id == r.id) = false := by
        cases h : (a.id == r.id) with
        | true => exact absurd h hk
        | false => rfl
      have hfind' : findById Reservation.id as r.id = some r := by
        have h' : findById Reservation.id (a :: as) r.id = some r := hfind
        simp only [findById, List.find?_cons, hk'] at h' ⊢
        exact h'
      have hnd' := List.nodup_cons.mp (by simpa only [List.map_cons] using hnd)
      simp only [replaceById, if_neg hk, List.map_cons]
      rw [hgh a (by simpa using hk), ih hnd'.2 hfind']

/-- The re-ranking loop, run over fetched documents with pairwise-distinct
ids that are stored verbatim, is a pointwise map over the store. -/
theorem rerankLoop_eq_map (pairs : List (Reservation × Nat)) :
    ∀ store : List Reservation,
    (store.map Reservation.id).Nodup →
    (∀ p ∈ pairs, findById Reservation.id store p.1.id = some p.1) →
    ((pairs.map (fun p => p.1.id)).Nodup) →
    (∀ p ∈ pairs, validReservation { p.1 with priority := p.2 + 1 } = true) →
    rerankLoop pairs store = store.map (applyPairs pairs) := by
  induction pairs with
  | nil =>
    intro store _ _ _ _
    have happ : applyPairs [] = id := funext applyPairs_nil
    simp only [rerankLoop, happ, List.map_id]
  | cons p rest ih =>
    intro store hnd hfind hpnd hval
    obtain ⟨r, i⟩ := p
    have hfr : findById Reservation.id store r.id = some r :=
      hfind (r, i) (List.mem_cons_self _ _)
    have hvr : validReservation { r with priority := i + 1 } = true :=
      hval (r, i) (List.mem_cons_self _ _)
    have hrid : r.id ∉ rest.map (fun p => p.1.id) := by
      have := List.nodup_cons.mp (by simpa only [List.map_cons] using hpnd)
      exact this.1
    simp only [rerankLoop, hvr, if_pos]
    set r' : Reservation := { r with priority := i + 1 } with hr'
    have hstore' : (replaceById Reservation.id store r.id r').map Reservation.id
        = store.map Reservation.id := map_key_replaceById rfl
    rw [ih (replaceById Reservation.id store r.id r')
      (by rw [hstore']; exact hnd)
      (by
        intro q hq
        have hne : q.1.id ≠ r.id := by
          intro he
          exact hrid (he ▸ List.mem_map_of_mem (fun p => p.1.id) hq)
        rw [@findById_replaceById_ne Reservation Reservation.id store r.id q.1.id r' rfl hne]
        exact hfind q (List.mem_cons_of_mem _ hq))
      (List.nodup_cons.mp (by simpa only [List.map_cons] using hpnd)).2
      (by intro q hq; exact hval q (List.mem_cons_of_mem _ hq))]
    apply map_replaceById_eq _ _ hnd hfr
    · intro x hx
      exact (applyPairs_cons_ne r i rest (Ne.symm hx)).symm
    · rw [applyPairs_not_found (by
        intro q hq he
        exact hrid (he ▸ List.mem_map_of_mem (fun p => p.1.id) hq))]
      simp only [applyPairs, List.find?_cons]
      rw [show (r.id == r.id) = true by simp]

/-- Every document comes out of the loop map either untouched or as a pure
priority update of itself (positions in the store never change). -/
theorem applyPairs_withIdx_shape {store l : List Reservation} {k : Nat}
    {x : Reservation} (hnd : (store.map Reservation.id).Nodup)
    (hl : ∀ y ∈ l, y ∈ store) (hx : x ∈ store) :
    ∃ j, applyPairs (withIdx l k) x = { x with priority := j } ∧
      (1 ≤ j ∨ j = x.priority) := by
  cases hfind : (withIdx l k).find? (fun p => p.1.id == x.id) with
  | none =>
    refine ⟨x.priority, ?_, Or.inr rfl⟩
    simp [applyPairs, hfind]
  | some p =>
    obtain ⟨r, j⟩ := p
    have hrx : r = x := by
      have hmem := List.mem_of_find?_eq_some hfind
      have hrl : r ∈ l := fst_mem_of_mem_withIdx hmem
      have hid := List.find?_some hfind
      exact eq_of_mem_same_key hnd (hl r hrl) hx (by simpa using hid)
    refine ⟨j + 1, ?_, Or.inl (Nat.le_add_left 1 j)⟩
    simp only [applyPairs, hfind]
    rw [hrx]

/-- Priorities assigned by the loop along the fetched list itself: the `n`
documents receive priorities `k+1, k+2, …, k+n` in fetch order. -/
theorem map_priority_applyPairs_withIdx (l : List Reservation)
    (hnd : (l.map Reservation.id).Nodup) :
    ∀ k, l.map (fun x => (applyPairs (withIdx l k) x).priority)
      = List.range' (k + 1) l.length := by
  induction l with
  | nil => intro k; rfl
  | cons x xs ih =>
    intro k
    have hnd' := List.nodup_cons.mp (by simpa only [List.map_cons] using hnd)
    have hhead : (applyPairs ((x, k) :: withIdx xs (k + 1)) x).priority = k + 1 := by
      simp only [applyPairs, List.find?_cons, beq_self_eq_true]
    have htail : xs.map (fun y => (applyPairs ((x, k) :: withIdx xs (k + 1)) y).priority)
        = xs.map (fun y => (applyPairs (withIdx xs (k + 1)) y).priority) := by
      apply List.map_congr_left
      intro y hy
      rw [applyPairs_cons_ne]
      intro he
      exact hnd'.1 (he ▸ List.mem_map_of_mem Reservation.id hy)
    simp only [withIdx, List.map_cons, List.length_cons, List.range'_succ]
    rw [hhead, htail, ih hnd'.2 (k + 1)]

/-- `replaceById` does not change a filtered view that excludes both the old
and the new document. -/
theorem filter_replaceById_of_false {store : List Reservation} {i : Nat}
    {r r' : Reservation} {q : Reservation → Bool}
    (hfind : findById Reservation.id store i = some r)
    (hr : q r = false) (hr' : q r' = false) :
    (replaceById Reservation.id store i r').filter q = store.filter q := by
  induction store with
  | nil => simp [replaceById]
  | cons a as ih =>
    by_cases hk : (a.id == i) = true
    · have ha : a = r := by
        have h' : findById Reservation.id (a :: as) i = some a := by
          simp only [findById, List.find?_cons, hk]
        rw [h'] at hfind
        exact Option.some_injective _ hfind
      subst ha
      simp [replaceById, hk, List.filter_cons, hr, hr']
    · have hk' : (a.id == i) = false := by
        cases h : (a.id == i) with
        | true => exact absurd h hk
        | false => rfl
      have hfind' : findById Reservation.id as i = some r := by
        have h' : findById Reservation.id (a :: as) i = some r := hfind
        simp only [findById, List.find?_cons, hk'] at h' ⊢
        exact h'
      simp only [replaceById, if_neg hk, List.filter_cons, ih hfind']

/-- Full specification of `updateReservationPriorities` on a store with
unique ids and valid stored reservations: ids are unchanged, every stored
reservation stays valid, the target book's active priorities become exactly
`1..N`, and every other book's active set is untouched. -/
theorem updatePriorities_spec (st : St) (bookId : Nat)
    (hnd : (st.reservations.map Reservation.id).Nodup)
    (hval : ∀ r ∈ st.reservations, validReservation r = true) :
    (updateReservationPriorities st bookId).reservations.map Reservation.id
        = st.reservations.map Reservation.id ∧
    (∀ r' ∈ (updateReservationPriorities st bookId).reservations,
        validReservation r' = true) ∧
    (activePrios (updateReservationPriorities st bookId) bookId).Perm
      (List.range' 1
        (activePrios (updateReservationPriorities st bookId) bookId).length) ∧
    (∀ b', b' ≠ bookId →
        activeFor (updateReservationPriorities st bookId) b' = activeFor st b') := by
  set p : Reservation → Bool :=
    fun r => r.bookId == bookId && r.status == ResStatus.active with hp
  set store := st.reservations with hstore
  set l := sortByResDate (store.filter p) with hl
  have hlperm : l.Perm (store.filter p) := sortByResDate_perm _
  have hlmem : ∀ y ∈ l, y ∈ store := fun y hy =>
    List.mem_of_mem_filter (hlperm.mem_iff.mp hy)
  have hlnd : (l.map Reservation.id).Nodup := by
    have h1 : ((store.filter p).map Reservation.id).Nodup :=
      List.Nodup.sublist (List.Sublist.map _ (List.filter_sublist store)) hnd
    exact (List.Perm.nodup ((hlperm.map Reservation.id).symm) h1)
  have hfindl : ∀ q ∈ withIdx l 0,
      findById Reservation.id store q.1.id = some q.1 := by
    intro q hq
    exact findById_of_mem_nodup hnd (hlmem q.1 (fst_mem_of_mem_withIdx hq))
  have hpnd : ((withIdx l 0).map (fun q => q.1.id)).Nodup := by
    have : (withIdx l 0).map (fun q => q.1.id)
        = ((withIdx l 0).map Prod.fst).map Reservation.id := by
      rw [List.map_map]; rfl
    rw [this, mapFst_withIdx]
    exact hlnd
  have hvalp : ∀ q ∈ withIdx l 0,
      validReservation { q.1 with priority := q.2 + 1 } = true := by
    intro q hq
    have hvq := hval q.1 (hlmem q.1 (fst_mem_of_mem_withIdx hq))
    simp only [validReservation, Bool.and_eq_true, decide_eq_true_eq] at hvq ⊢
    exact ⟨hvq.1, Nat.le_add_left 1 q.2⟩
  have hres : (updateReservationPriorities st bookId).reservations
      = store.map (applyPairs (withIdx l 0)) := by
    simp only [updateReservationPriorities]
    exact rerankLoop_eq_map (withIdx l 0) store hnd hfindl hpnd hvalp
  set F := applyPairs (withIdx l 0) with hF
  have hshape : ∀ x ∈ store, ∃ j, F x = { x with priority := j } ∧
      (1 ≤ j ∨ j = x.priority) := fun x hx =>
    applyPairs_withIdx_shape hnd hlmem hx
  refine ⟨?_, ?_, ?_, ?_⟩
  · -- ids unchanged
    rw [hres, List.map_map]
    apply List.map_congr_left
    intro x hx
    obtain ⟨j, hFx, _⟩ := hshape x hx
    simp [Function.comp, hFx]
  · -- validity preserved
    intro r' hr'
    rw [hres] at hr'
    obtain ⟨x, hx, hFx⟩ := List.mem_map.mp hr'
    obtain ⟨j, hFxe, hj⟩ := hshape x hx
    have hvx := hval x hx
    simp only [validReservation, Bool.and_eq_true, decide_eq_true_eq] at hvx ⊢
    rw [← hFx, hFxe]
    refine ⟨hvx.1, ?_⟩
    rcases hj with hj | hj
    · exact hj
    · rw [hj]; exact hvx.2
  · -- the book's active priorities become 1..N
    have hfiltermap : (store.map F).filter p = (store.filter p).map F := by
      rw [List.filter_map]
      congr 1
      apply List.filter_congr
      intro x hx
      obtain ⟨j, hFx, _⟩ := hshape x hx
      simp only [Function.comp, hFx]
    have hactive : activeFor (updateReservationPriorities st bookId) bookId
        = (store.filter p).map F := by
      simp only [activeFor, hres]
      exact hfiltermap
    have hprios : activePrios (updateReservationPriorities st bookId) bookId
        = (store.filter p).map (fun x => (F x).priority) := by
      simp only [activePrios, hactive, List.map_map]
      rfl
    have hperm : ((store.filter p).map (fun x => (F x).priority)).Perm
        (l.map (fun x => (F x).priority)) :=
      List.Perm.map _ hlperm.symm
    have hrange : l.map (fun x => (F x).priority) = List.range' 1 l.length := by
      have := map_priority_applyPairs_withIdx l hlnd 0
      simpa using this
    have hlen : ((store.filter p).map (fun x => (F x).priority)).length
        = l.length := by
      rw [List.length_map, hlperm.symm.length_eq]
    rw [hprios, hlen]
    rw [hrange] at hperm
    exact hperm
  · -- other books untouched
    intro b' hb'
    simp only [activeFor, hres]
    set q : Reservation → Bool :=
      fun r => r.bookId == b' && r.status == ResStatus.active with hq
    rw [List.filter_map]
    have hcong : store.filter (q ∘ F) = store.filter q := by
      apply List.filter_congr
      intro x hx
      obtain ⟨j, hFx, _⟩ := hshape x hx
      simp only [Function.comp, hFx]
    rw [hcong]
    have hmapid : (store.filter q).map F = store.filter q := by
      have h1 : (store.filter q).map F = (store.filter q).map id := by
        apply List.map_congr_left
        intro x hx
        have hxq : q x = true := (List.mem_filter.mp hx).2
        have hxb : x.bookId = b' := by
          have := hxq
          simp only [hq, Bool.and_eq_true, beq_iff_eq] at this
          exact this.1
        show F x = x
        apply applyPairs_not_found
        intro pr hpr he
        have hprl : pr.1 ∈ l := fst_mem_of_mem_withIdx hpr
        have hprs : pr.1 ∈ store.filter p := hlperm.mem_iff.mp hprl
        have hprb : pr.1.bookId = bookId := by
          have := (List.mem_filter.mp hprs).2
          simp only [hp, Bool.and_eq_true, beq_iff_eq] at this
          exact this.1
        have hmem := List.mem_of_mem_filter hx
        have : pr.1 = x :=
          eq_of_mem_same_key hnd (List.mem_of_mem_filter hprs) hmem he
        rw [this, hxb] at hprb
        exact hb' hprb
      rw [h1, List.map_id]
    rw [hmapid]

/-! ### Preservation of `GoodRes` by the reservation operations -/

/-- Prepending a freshly created active reservation whose priority is the
current active count for its book plus one keeps the store well formed. -/
theorem goodRes_insert (st : St) (b : Nat) (res : Reservation) (h : GoodRes st)
    (hid : res.id = st.nextId) (hst : res.status = ResStatus.active)
    (hbk : res.bookId = b) (hpr : res.priority = (activeFor st b).length + 1)
    (hv : validReservation res = true) :
    GoodRes { st with reservations := res :: st.reservations,
                      nextId := st.nextId + 1 } := by
  obtain ⟨h1, h2, h3, h4⟩ := h
  set st' : St := { st with reservations := res :: st.reservations,
                            nextId := st.nextId + 1 } with hst'
  have hAF : ∀ bk, activeFor st' bk
      = if (res.bookId == bk && res.status == ResStatus.active) = true
        then res :: activeFor st bk else activeFor st bk := by
    intro bk
    simp only [activeFor, hst', List.filter_cons]
  refine ⟨?_, ?_, ?_, ?_⟩
  · intro r hr
    rcases List.mem_cons.mp hr with rfl | hr'
    · rw [hid]; exact Nat.lt_succ_self _
    · exact Nat.lt_succ_of_lt (h1 r hr')
  · simp only [List.map_cons]
    refine List.nodup_cons.mpr ⟨?_, h2⟩
    intro hmem
    obtain ⟨y, hy, hyid⟩ := List.mem_map.mp hmem
    have := h1 y hy
    rw [hyid, hid] at this
    exact Nat.lt_irrefl _ this
  · intro r hr
    rcases List.mem_cons.mp hr with rfl | hr'
    · exact hv
    · exact h3 r hr'
  · intro bk
    by_cases hbk2 : bk = b
    · subst hbk2
      have hcond : (res.bookId == bk && res.status == ResStatus.active) = true := by
        simp [hbk, hst]
      have hAF' := hAF bk
      rw [if_pos hcond] at hAF'
      have hN : (activePrios st bk).length = (activeFor st bk).length := by
        simp [activePrios]
      simp only [activePrios, hAF', List.map_cons, List.length_cons, List.length_map]
      have hperm := h4 bk
      rw [hN] at hperm
      have hstep : List.range' 1 ((activeFor st bk).length + 1)
          = List.range' 1 (activeFor st bk).length ++ [(activeFor st bk).length + 1] := by
        rw [List.range'_concat]
        congr 1
        simp [Nat.add_comm]
      rw [hstep, hpr]
      exact (hperm.cons _).trans (List.perm_append_singleton _ _).symm
    · have hcond : (res.bookId == bk && res.status == ResStatus.active) = false := by
        have : res.bookId ≠ bk := by rw [hbk]; exact fun he => hbk2 he.symm
        simp [this]
      have hAF' := hAF bk
      rw [hcond, if_neg (by simp)] at hAF'
      simp only [activePrios, hAF']
      exact h4 bk

theorem goodRes_create (st : St) (now : Int) (u : Nat) (role : Role) (b : Nat)
    (e : Int) (h : GoodRes st) : GoodRes (createReservation st now u role b e).2 := by
  cases hfb : findBook st b with
  | none => simp only [createReservation, hfb]; exact h
  | some book =>
    simp only [createReservation, hfb]
    split
    · exact h
    split
    · exact h
    split
    · exact h
    split
    · exact h
    split
    case isTrue hvres => exact goodRes_insert st b _ h rfl rfl rfl rfl hvres
    case isFalse => exact h

/-- Replacing a stored reservation by a same-id same-book update and then
re-ranking that book keeps the store well formed. -/
theorem goodRes_replace_then_rerank (st : St) (resId : Nat) (r r' : Reservation)
    (h : GoodRes st) (hfr : findReservation st resId = some r)
    (hid' : r'.id = r.id) (hbook : r'.bookId = r.bookId)
    (hval' : validReservation r' = true) :
    GoodRes (updateReservationPriorities
      { st with reservations := replaceById Reservation.id st.reservations resId r' }
      r.bookId) := by
  obtain ⟨h1, h2, h3, h4⟩ := h
  have hfind : findById Reservation.id st.reservations resId = some r := hfr
  have hrid : r.id = resId := findById_some_key hfind
  set st1 : St :=
    { st with reservations := replaceById Reservation.id st.reservations resId r' }
    with hst1
  have hids1 : st1.reservations.map Reservation.id
      = st.reservations.map Reservation.id :=
    map_key_replaceById (by rw [hid', hrid])
  have hnd1 : (st1.reservations.map Reservation.id).Nodup := by rw [hids1]; exact h2
  have hval1 : ∀ x ∈ st1.reservations, validReservation x = true := by
    intro x hx
    rcases mem_replaceById hx with hx' | rfl
    · exact h3 x hx'
    · exact hval'
  obtain ⟨hids, hvals, hperm, hother⟩ := updatePriorities_spec st1 r.bookId hnd1 hval1
  refine ⟨?_, ?_, hvals, ?_⟩
  · intro x hx
    have hxm : x.id ∈ (updateReservationPriorities st1 r.bookId).reservations.map
        Reservation.id := List.mem_map_of_mem _ hx
    rw [hids, hids1] at hxm
    obtain ⟨y, hy, hyx⟩ := List.mem_map.mp hxm
    rw [← hyx]
    exact h1 y hy
  · rw [hids, hids1]
    exact h2
  · intro bk
    by_cases hbk : bk = r.bookId
    · subst hbk
      exact hperm
    · have hq : activeFor (updateReservationPriorities st1 r.bookId) bk
          = activeFor st bk := by
        rw [hother bk hbk]
        simp only [activeFor, hst1]
        apply filter_replaceById_of_false hfind
        · show (r.bookId == bk && r.status == ResStatus.active) = false
          simp [Ne.symm hbk]
        · show (r'.bookId == bk && r'.status == ResStatus.active) = false
          rw [hbook]
          simp [Ne.symm hbk]
      simp only [activePrios, hq]
      exact h4 bk

theorem goodRes_cancel (st : St) (resId actorId : Nat) (role : Role)
    (h : GoodRes st) : GoodRes (cancelReservation st resId actorId role).2 := by
  cases hfr : findReservation st resId with
  | none => simp only [cancelReservation, hfr]; exact h
  | some r =>
    simp only [cancelReservation, hfr]
    split
    · exact h
    split
    · exact h
    split
    case isTrue hvres =>
      exact goodRes_replace_then_rerank st resId r _ h hfr rfl rfl hvres
    case isFalse => exact h

theorem goodRes_fulfill (st : St) (now : Int) (resId staffId : Nat)
    (h : GoodRes st) : GoodRes (fulfillReservation st now resId staffId).2 := by
  cases hfr : findReservation st resId with
  | none => simp only [fulfillReservation, hfr]; exact h
  | some r =>
    simp only [fulfillReservation, hfr]
    split
    · exact h
    cases hfb : findBook st r.bookId with
    | none => simp only [hfb]; exact h
    | some book =>
      simp only [hfb]
      split
      · exact h
      split
      case isTrue hvres =>
        exact goodRes_replace_then_rerank st resId r _ h hfr rfl rfl hvres
      case isFalse => exact h

/-- Recognizer for the batch `autoExpireReservations` operation. -/
def isAutoExpire : ResOp → Bool
  | .autoExpire _ => true
  | _ => false

theorem goodRes_applyResOp (st : St) (op : ResOp) (h : GoodRes st)
    (hop : isAutoExpire op = false) : GoodRes (applyResOp st op) := by
  cases op with
  | create now u role b e => exact goodRes_create st now u role b e h
  | cancel r a role => exact goodRes_cancel st r a role h
  | fulfill now r s => exact goodRes_fulfill st now r s h
  | autoExpire now => simp [isAutoExpire] at hop

theorem goodRes_applyResOps (ops : List ResOp) : ∀ st : St, GoodRes st →
    (∀ op ∈ ops, isAutoExpire op = false) → GoodRes (applyResOps st ops) := by
  induction ops with
  | nil => intro st h _; exact h
  | cons op rest ih =>
    intro st h hops
    have h1 := goodRes_applyResOp st op h (hops op (List.mem_cons_self _ _))
    have : applyResOps st (op :: rest) = applyResOps (applyResOp st op) rest := rfl
    rw [this]
    exact ih _ h1 (fun o ho => hops o (List.mem_cons_of_mem _ ho))

/-! ### Lemmas for the copy-pool invariant -/

theorem validBook_bookInv {b : Book} (h : validBook b = true) : BookInv b := by
  simp only [validBook, Bool.and_eq_true, decide_eq_true_eq] at h
  exact ⟨h.1.2, h.2⟩

theorem mem_books_finishReturn {st : St} {tx : Transaction} {now fa : Int}
    {staffId : Nat} {notes : String} {b : Book}
    (hb : b ∈ (finishReturn st tx now fa staffId notes).2.books) :
    b ∈ st.books ∨ validBook b = true := by
  simp only [finishReturn] at hb
  split at hb
  · split at hb
    · exact Or.inl hb
    · split at hb
      case isTrue hv =>
        simp only at hb
        rcases mem_replaceById hb with hb' | rfl
        · exact Or.inl hb'
        · exact Or.inr hv
      case isFalse => exact Or.inl hb
  · exact Or.inl hb

theorem mem_books_applyCircOp {st : St} {op : CircOp} {b : Book}
    (hb : b ∈ (applyCircOp st op).books) : b ∈ st.books ∨ validBook b = true := by
  cases op with
  | issue now u bk d s =>
    simp only [applyCircOp, issueBook] at hb
    split at hb
    · exact Or.inl hb
    split at hb
    · exact Or.inl hb
    split at hb
    · exact Or.inl hb
    split at hb
    · exact Or.inl hb
    split at hb
    · exact Or.inl hb
    split at hb
    · exact Or.inl hb
    split at hb
    · exact Or.inl hb
    split at hb
    · split at hb
      case isTrue hv =>
        simp only at hb
        rcases mem_replaceById hb with hb' | rfl
        · exact Or.inl hb'
        · exact Or.inr hv
      case isFalse => exact Or.inl hb
    · exact Or.inl hb
  | bookReturn now t s n =>
    simp only [applyCircOp, returnBook] at hb
    split at hb
    · exact Or.inl hb
    split at hb
    · exact Or.inl hb
    split at hb
    · split at hb
      · have h' := mem_books_finishReturn hb
        exact h'
      · exact Or.inl hb
    · have h' := mem_books_finishReturn hb
      exact h'
  | updateAvail bk a t =>
    simp only [applyCircOp, updateBookAvailability] at hb
    split at hb
    · exact Or.inl hb
    split at hb
    case isTrue hv =>
      simp only at hb
      rcases mem_replaceById hb with hb' | rfl
      · exact Or.inl hb'
      · exact Or.inr hv
    case isFalse => exact Or.inl hb

theorem bookInv_applyCircOp {st : St} {op : CircOp}
    (h : ∀ x ∈ st.books, BookInv x) :
    ∀ x ∈ (applyCircOp st op).books, BookInv x := by
  intro x hx
  rcases mem_books_applyCircOp hx with hx' | hv
  · exact h x hx'
  · exact validBook_bookInv hv

/-! ### Sample stores used to instantiate the claims -/

/-- An active borrower. -/
def sampleUser : User := { id := 1, status := UserStatus.active, role := Role.borrower }

/-- A loanable one-copy book. -/
def sampleBook : Book :=
  { id := 2, totalCopies := 1, availableCopies := 1, status := BookStatus.available }

/-- A store with one active borrower and one available one-copy book. -/
def sampleSt : St :=
  { users := [sampleUser], books := [sampleBook], transactions := [], fines := [],
    reservations := [], nextId := 10 }

/-- The same book with zero loanable copies. -/
def sampleBookZero : Book :=
  { id := 2, totalCopies := 1, availableCopies := 0, status := BookStatus.available }

/-- A store whose only book cannot be borrowed (zero copies). -/
def sampleStZero : St :=
  { users := [sampleUser], books := [sampleBookZero], transactions := [], fines := [],
    reservations := [], nextId := 10 }

/-- The book under maintenance while copies are on the shelf. -/
def sampleBookMaint : Book :=
  { id := 2, totalCopies := 1, availableCopies := 1, status := BookStatus.maintenance }

/-- Two active reservations on book 2, the first one already past its expiry
at time 10, with priorities 1 and 2. -/
def sampleResA : Reservation :=
  { id := 11, userId := 1, bookId := 2, reservationDate := 0, expiryDate := 5,
    status := ResStatus.active, priority := 1, fulfilledBy := none, fulfilledDate := none }

def sampleResB : Reservation :=
  { id := 12, userId := 3, bookId := 2, reservationDate := 1, expiryDate := 100,
    status := ResStatus.active, priority := 2, fulfilledBy := none, fulfilledDate := none }

/-- A store holding the two reservations above on an unavailable book. -/
def sampleStRes : St :=
  { users := [sampleUser], books := [sampleBookZero], transactions := [], fines := [],
    reservations := [sampleResA, sampleResB], nextId := 20 }

/-- A store whose only book is under maintenance with a copy on the shelf. -/
def sampleStMaint : St :=
  { users := [sampleUser], books := [sampleBookMaint], transactions := [],
    fines := [], reservations := [], nextId := 10 }

/-- A paid fine of amount 5. -/
def samplePaidFine : Fine :=
  { id := 1, userId := 1, transactionId := 3, amount := 5,
    reason := FineReason.damage, paymentStatus := PayStatus.paid,
    paymentDate := some 4, paymentMethod := some "cash", processedBy := some 9,
    notes := none }

/-- A store holding the paid fine above. -/
def sampleStPaid : St :=
  { users := [], books := [], transactions := [], fines := [samplePaidFine],
    reservations := [], nextId := 20 }

/-- An open loan of book 2 by borrower 1, issued at 100 and due at 500. -/
def sampleLoan : Transaction :=
  { id := 10, userId := 1, bookId := 2, issueDate := 100, dueDate := 500,
    returnDate := none, fineAmount := 0, status := TxStatus.issued,
    issuedBy := 9, returnedBy := none, notes := none }

/-- A store holding the open loan above (its book has no free copy left). -/
def sampleStLoan : St :=
  { users := [sampleUser], books := [sampleBookZero],
    transactions := [sampleLoan], fines := [], reservations := [], nextId := 11 }

/-! ### Claim C1 -/

/-- Claim C1: for every book starting in a state where `0 ≤ availableCopies ≤
totalCopies` holds for all books, after any sequential sequence of
`issueBook`, `returnBook` and `updateBookAvailability` operations (each
either succeeding or returning an error), every book still satisfies
`0 ≤ availableCopies ≤ totalCopies`. -/
theorem claim_C1_book_copies_invariant (st : St) (ops : List CircOp) (b : Book)
    (hinv : ∀ x ∈ st.books, BookInv x)
    (hb : b ∈ (applyCircOps st ops).books) : BookInv b := by
  induction ops generalizing st with
  | nil => exact hinv b hb
  | cons op rest ih => exact ih (applyCircOp st op) (bookInv_applyCircOp hinv) hb

/-- Witness for C1: issuing the sample book and returning it late keeps the
copy counts inside `0 ≤ available ≤ total`. -/
theorem claim_C1_book_copies_invariant_witness :
    BookInv { id := 2, totalCopies := 1, availableCopies := 1,
              status := BookStatus.available } :=
  claim_C1_book_copies_invariant sampleSt
    [CircOp.issue 100 1 2 500 9, CircOp.bookReturn 700 10 9 ""]
    _ (by decide) (by decide)

/-! ### Claim C2 -/

/-- Claim C2 counterexample: starting from an empty reservation table, two
`createReservation` calls followed by one `autoExpireReservations` call (a
sequence of the four operations named by the claim) leave book 2 with one
active reservation whose priority is 2, not the contiguous sequence `1..1`:
`autoExpireReservations` never re-ranks. -/
theorem claim_C2_counterexample :
    ¬ (activePrios (applyResOps
        { users := [sampleUser], books := [sampleBookZero], transactions := [],
          fines := [], reservations := [], nextId := 11 }
        [ResOp.create 0 1 Role.borrower 2 5, ResOp.create 1 3 Role.borrower 2 100,
         ResOp.autoExpire 10]) 2).Perm
      (List.range' 1 (activePrios (applyResOps
        { users := [sampleUser], books := [sampleBookZero], transactions := [],
          fines := [], reservations := [], nextId := 11 }
        [ResOp.create 0 1 Role.borrower 2 5, ResOp.create 1 3 Role.borrower 2 100,
         ResOp.autoExpire 10]) 2).length) := by
  decide

/-- Claim C2 (amended): for every book, after any sequential sequence of
`createReservation`, `cancelReservation` and `fulfillReservation` operations
on a well-formed store (unique ids, stored reservations valid, invariant
holding), the priorities of the book's active reservations form the
contiguous sequence `1..N` with no duplicates; `autoExpireReservations` is
excluded because it performs no re-ranking. -/
theorem claim_C2_amended_priorities_invariant (st : St) (ops : List ResOp)
    (h : GoodRes st) (hops : ∀ op ∈ ops, isAutoExpire op = false) (bookId : Nat) :
    (activePrios (applyResOps st ops) bookId).Perm
      (List.range' 1 (activePrios (applyResOps st ops) bookId).length) :=
  (goodRes_applyResOps ops st h hops).2.2.2 bookId

/-- Witness for the amended C2: three reservations are queued on book 2 and
the first is cancelled; the remaining priorities are a permutation of 1..2. -/
theorem claim_C2_amended_priorities_invariant_witness :
    (activePrios (applyResOps sampleStZero
      [ResOp.create 0 1 Role.borrower 2 50, ResOp.create 1 3 Role.borrower 2 60,
       ResOp.create 2 4 Role.borrower 2 70, ResOp.cancel 10 1 Role.borrower]) 2).Perm
      (List.range' 1 (activePrios (applyResOps sampleStZero
        [ResOp.create 0 1 Role.borrower 2 50, ResOp.create 1 3 Role.borrower 2 60,
         ResOp.create 2 4 Role.borrower 2 70, ResOp.cancel 10 1 Role.borrower]) 2).length) :=
  claim_C2_amended_priorities_invariant sampleStZero _
    ⟨by decide, by decide, by decide,
      fun bk => by simp [activePrios, activeFor, sampleStZero]⟩
    (by decide) 2

/-! ### Claim C5 -/

/-- Claim C5 counterexample: at time 10 the first sample reservation is past
its expiry; `autoExpireReservations` expires it but leaves the surviving
active reservation of book 2 with priority 2, so the book's remaining active
reservations are not re-ranked to `1..N`. -/
theorem claim_C5_counterexample :
    (findReservation (autoExpireReservations sampleStRes 10).2 11).map
        (fun r => r.status) = some ResStatus.expired ∧
    ¬ (activePrios (autoExpireReservations sampleStRes 10).2 2).Perm
      (List.range' 1 (activePrios (autoExpireReservations sampleStRes 10).2 2).length) := by
  decide

/-- Claim C5 (amended): after `autoExpireReservations` completes, every
reservation that is still active has an expiry date not before `now` (all
overdue active reservations were expired), but no re-ranking happens: every
stored reservation keeps the priority it had before the call. -/
theorem claim_C5_amended_autoexpire (st : St) (now : Int) (r : Reservation)
    (hr : r ∈ (autoExpireReservations st now).2.reservations)
    (hact : r.status = ResStatus.active) :
    ¬ r.expiryDate < now ∧
    (autoExpireReservations st now).2.reservations.map (fun x => x.priority)
      = st.reservations.map (fun x => x.priority) := by
  constructor
  · simp only [autoExpireReservations] at hr
    obtain ⟨x, hx, hfx⟩ := List.mem_map.mp hr
    by_cases hc : (x.status == ResStatus.active && decide (x.expiryDate < now)) = true
    · rw [if_pos hc] at hfx
      rw [← hfx] at hact
      simp at hact
    · rw [if_neg hc] at hfx
      subst hfx
      simp only [Bool.and_eq_true, beq_iff_eq, decide_eq_true_eq] at hc
      intro hlt
      exact hc ⟨hact, hlt⟩
  · simp only [autoExpireReservations, List.map_map]
    apply List.map_congr_left
    intro x hx
    by_cases hc : (x.status == ResStatus.active && decide (x.expiryDate < now)) = true
    · simp [Function.comp, hc]
    · simp [Function.comp, hc]

/-- Witness for the amended C5: the surviving active reservation of the
sample store is not past its expiry, and priorities are untouched. -/
theorem claim_C5_amended_autoexpire_witness :
    ¬ sampleResB.expiryDate < 10 ∧
    (autoExpireReservations sampleStRes 10).2.reservations.map (fun x => x.priority)
      = sampleStRes.reservations.map (fun x => x.priority) :=
  claim_C5_amended_autoexpire sampleStRes 10 sampleResB (by decide) (by decide)

/-! ### Claim C7 -/

/-- Claim C7 counterexample: a book under maintenance with one copy on the
shelf has `availableCopies > 0`, yet `createReservation` does not return the
book-available error (it creates the reservation), because the controller
tests `availableCopies > 0 && status === 'available'`. -/
theorem claim_C7_counterexample :
    (findBook sampleStMaint 2).map (fun b => b.availableCopies) = some 1 ∧
    (createReservation sampleStMaint 0 1 Role.borrower 2 100).1
      ≠ ReserveResult.bookAvailable := by
  decide

/-- Claim C7 (amended): given the requested book exists, `createReservation`
fails with the book-available error exactly when the book has more than zero
available copies AND its status is `available`; in particular it never fails
for that reason when the book has zero available copies. -/
theorem claim_C7_amended_reserve_gate (st : St) (now : Int) (userId : Nat)
    (role : Role) (bookId : Nat) (expiryDate : Int) (book : Book)
    (hb : findBook st bookId = some book) :
    (createReservation st now userId role bookId expiryDate).1
        = ReserveResult.bookAvailable
      ↔ (0 < book.availableCopies ∧ book.status = BookStatus.available) := by
  constructor
  · intro hres
    by_contra hcond
    simp only [createReservation, hb] at hres
    rw [if_neg hcond] at hres
    split at hres
    · exact ReserveResult.noConfusion hres
    split at hres
    · exact ReserveResult.noConfusion hres
    split at hres
    · exact ReserveResult.noConfusion hres
    split at hres
    · exact ReserveResult.noConfusion hres
    · exact ReserveResult.noConfusion hres
  · intro hcond
    simp only [createReservation, hb]
    rw [if_pos hcond]

/-- Witness for the amended C7: the zero-copy sample book never triggers the
book-available error, and restoring a copy triggers it. -/
theorem claim_C7_amended_reserve_gate_witness :
    ((createReservation sampleStZero 0 1 Role.borrower 2 100).1
        = ReserveResult.bookAvailable
      ↔ (0 < sampleBookZero.availableCopies ∧
         sampleBookZero.status = BookStatus.available)) ∧
    (createReservation sampleSt 0 1 Role.borrower 2 100).1
        = ReserveResult.bookAvailable :=
  ⟨claim_C7_amended_reserve_gate sampleStZero 0 1 Role.borrower 2 100
      sampleBookZero (by decide),
    (claim_C7_amended_reserve_gate sampleSt 0 1 Role.borrower 2 100
      sampleBook (by decide)).mpr (by decide)⟩

/-! ### Claim C8 -/

/-- A store holding one waived fine of amount 5. -/
def sampleStWaived : St :=
  { users := [sampleUser], books := [sampleBook], transactions := [],
    fines := [{ id := 1, userId := 1, transactionId := 3, amount := 5,
                reason := FineReason.damage, paymentStatus := PayStatus.waived,
                paymentDate := none, paymentMethod := none, processedBy := some 9,
                notes := none }],
    reservations := [], nextId := 20 }

/-- Claim C8 counterexample: on a waived fine of amount 5, `updateFine`
succeeds and changes `amount` (a field other than notes) to 7, and
`deleteFine` succeeds and removes the record — both guard only against
`paid`. -/
theorem claim_C8_counterexample :
    (findFine sampleStWaived 1).map (fun f => (f.paymentStatus, f.amount))
        = some (PayStatus.waived, 5) ∧
    (updateFine sampleStWaived 0 1 (some 7) none none).1 = UpdateFineResult.ok ∧
    (findFine (updateFine sampleStWaived 0 1 (some 7) none none).2 1).map
        (fun f => f.amount) = some 7 ∧
    (deleteFine sampleStWaived 1).1 = DeleteFineResult.ok ∧
    findFine (deleteFine sampleStWaived 1).2 1 = none := by
  decide

/-- Claim C8 (amended): a paid fine is fully immutable — pay, waive, update
and delete all fail and leave the store unchanged (so the record persists);
a waived fine rejects pay and waive without mutation, but `updateFine` and
`deleteFine` only guard against `paid`, so a waived fine can still be
updated (amount, reason, notes) or deleted. -/
theorem claim_C8_amended_fine_immutability (st : St) (now : Int) (fineId : Nat)
    (f : Fine) (hf : findFine st fineId = some f) :
    (f.paymentStatus = PayStatus.paid →
      (∀ method staffId notes,
        processFinePayment st now fineId method staffId notes = (.alreadyPaid, st)) ∧
      (∀ reason staffId, waiveFine st now fineId reason staffId = (.cannotWaivePaid, st)) ∧
      (∀ a r n, updateFine st now fineId a r n = (.cannotUpdatePaid, st)) ∧
      deleteFine st fineId = (.cannotDeletePaid, st)) ∧
    (f.paymentStatus = PayStatus.waived →
      (∀ method staffId notes,
        processFinePayment st now fineId method staffId notes = (.alreadyWaived, st)) ∧
      (∀ reason staffId, waiveFine st now fineId reason staffId = (.alreadyWaived, st))) := by
  constructor
  · intro hpaid
    refine ⟨?_, ?_, ?_, ?_⟩
    · intro method staffId notes
      simp [processFinePayment, hf, hpaid]
    · intro reason staffId
      simp [waiveFine, hf, hpaid]
    · intro a r n
      simp [updateFine, hf, hpaid]
    · simp [deleteFine, hf, hpaid]
  · intro hwaived
    refine ⟨?_, ?_⟩
    · intro method staffId notes
      simp [processFinePayment, hf, hwaived]
    · intro reason staffId
      simp [waiveFine, hf, hwaived]

/-- Witness for the amended C8: a concrete paid fine rejects all four
operations, and a concrete waived fine rejects pay and waive. -/
theorem claim_C8_amended_fine_immutability_witness :
    updateFine sampleStPaid 0 1 (some 7) none none = (.cannotUpdatePaid, sampleStPaid) ∧
    waiveFine sampleStWaived 0 1 "dup" 9 = (.alreadyWaived, sampleStWaived) :=
  ⟨((claim_C8_amended_fine_immutability sampleStPaid 0 1 samplePaidFine
        (by decide)).1 (by decide)).2.2.1 (some 7) none none,
    ((claim_C8_amended_fine_immutability sampleStWaived 0 1 _ rfl).2 (by decide)).2
      "dup" 9⟩

/-! ### Claim C10 -/

/-- Claim C10: on a loan with status `issued` (whose stored record passes its
own save validation), `extendDueDate` succeeds for any `newDueDate` without
validating it — the new date may lie in the past or before `issueDate` — and
afterwards the stored loan's `dueDate` equals `newDueDate`, so whenever
`newDueDate < now` the loan immediately satisfies the query-time overdue
predicate. -/
theorem claim_C10_extend_no_validation (st : St) (txId : Nat) (newDueDate : Int)
    (reason : String) (now : Int) (tx : Transaction)
    (htx : findTransaction st txId = some tx) (hiss : tx.status = TxStatus.issued)
    (hvt : validTransaction tx = true) :
    (extendDueDate st txId newDueDate reason).1 = ExtendResult.ok newDueDate ∧
    ∃ tx', findTransaction (extendDueDate st txId newDueDate reason).2 txId = some tx' ∧
      tx'.dueDate = newDueDate ∧ tx'.status = TxStatus.issued ∧
      (newDueDate < now → isOverdue now tx' = true) := by
  have htxid : tx.id = txId := findById_some_key htx
  have hvt' : validTransaction { tx with dueDate := newDueDate, notes := some (extendNote tx.notes reason) } = true := hvt
  constructor
  · simp only [extendDueDate, htx]
    rw [if_neg (by simp [hiss]), if_pos hvt']
  · refine ⟨{ tx with dueDate := newDueDate, notes := some (extendNote tx.notes reason) }, ?_, rfl, hiss, ?_⟩
    · simp only [extendDueDate, htx]
      rw [if_neg (by simp [hiss]), if_pos hvt']
      exact findById_replaceById_self _ htx htxid
    · intro hlt
      simp [isOverdue, hiss, hlt]

/-- Witness for C10: extending the sample issued loan to a due date lying
before its issue date succeeds, and the loan then counts as overdue. -/
theorem claim_C10_extend_no_validation_witness :
    ((extendDueDate sampleStLoan 10 (-50) "shorten").1 = ExtendResult.ok (-50) ∧
      ∃ tx', findTransaction (extendDueDate sampleStLoan 10 (-50) "shorten").2 10
          = some tx' ∧
        tx'.dueDate = -50 ∧ tx'.status = TxStatus.issued ∧
        (-50 < (200 : Int) → isOverdue 200 tx' = true)) ∧
    (-50 : Int) < sampleLoan.issueDate :=
  ⟨claim_C10_extend_no_validation sampleStLoan 10 (-50) "shorten" 200 sampleLoan
      (by decide) (by decide) (by decide),
    by decide⟩

/-! ### Claim C4 -/

/-- Claim C4: every failing `issueBook` precondition — borrower missing or
inactive, book missing or unavailable, existing open loan for the same
borrower and book, borrowing limit reached, or a pending fine — yields its
own specific error and performs no mutation at all: the returned store is the
input store (no transaction record, `availableCopies` untouched).  The
implications follow the controller's check order. -/
theorem claim_C4_issue_precondition_errors (st : St) (now : Int)
    (userId bookId : Nat) (dueDate : Int) (staffId : Nat) :
    (findUser st userId = none →
      issueBook st now userId bookId dueDate staffId = (.userNotFound, st)) ∧
    (∀ user, findUser st userId = some user → user.status ≠ UserStatus.active →
      issueBook st now userId bookId dueDate staffId = (.userInactive, st)) ∧
    (∀ user, findUser st userId = some user → user.status = UserStatus.active →
      findBook st bookId = none →
      issueBook st now userId bookId dueDate staffId = (.bookNotFound, st)) ∧
    (∀ user book, findUser st userId = some user →
      user.status = UserStatus.active → findBook st bookId = some book →
      (book.availableCopies ≤ 0 ∨ book.status ≠ BookStatus.available) →
      issueBook st now userId bookId dueDate staffId = (.bookUnavailable, st)) ∧
    (∀ user book, findUser st userId = some user →
      user.status = UserStatus.active → findBook st bookId = some book →
      ¬ (book.availableCopies ≤ 0 ∨ book.status ≠ BookStatus.available) →
      (st.transactions.any fun t =>
        t.userId == userId && t.bookId == bookId && t.status == TxStatus.issued) = true →
      issueBook st now userId bookId dueDate staffId = (.duplicateLoan, st)) ∧
    (∀ user book, findUser st userId = some user →
      user.status = UserStatus.active → findBook st bookId = some book →
      ¬ (book.availableCopies ≤ 0 ∨ book.status ≠ BookStatus.available) →
      (st.transactions.any fun t =>
        t.userId == userId && t.bookId == bookId && t.status == TxStatus.issued) = false →
      (st.transactions.filter fun t =>
        t.userId == userId && t.status == TxStatus.issued).length
          ≥ borrowingLimit user.role →
      issueBook st now userId bookId dueDate staffId
        = (.limitExceeded (borrowingLimit user.role), st)) ∧
    (∀ user book, findUser st userId = some user →
      user.status = UserStatus.active → findBook st bookId = some book →
      ¬ (book.availableCopies ≤ 0 ∨ book.status ≠ BookStatus.available) →
      (st.transactions.any fun t =>
        t.userId == userId && t.bookId == bookId && t.status == TxStatus.issued) = false →
      ¬ (st.transactions.filter fun t =>
        t.userId == userId && t.status == TxStatus.issued).length
          ≥ borrowingLimit user.role →
      (st.fines.any fun f =>
        f.userId == userId && f.paymentStatus == PayStatus.pending) = true →
      issueBook st now userId bookId dueDate staffId = (.outstandingFine, st)) := by
  refine ⟨?_, ?_, ?_, ?_, ?_, ?_, ?_⟩
  · intro h
    simp [issueBook, h]
  · intro user hu hst
    simp [issueBook, hu, hst]
  · intro user hu hact hb
    simp [issueBook, hu, hact, hb]
  · intro user book hu hact hb hcond
    simp [issueBook, hu, hact, hb, hcond]
  · intro user book hu hact hb hcond hdup
    simp [issueBook, hu, hact, hb, hcond, hdup]
  · intro user book hu hact hb hcond hdup hlim
    simp [issueBook, hu, hact, hb, hcond, hdup, hlim]
  · intro user book hu hact hb hcond hdup hlim hfine
    simp [issueBook, hu, hact, hb, hcond, hdup, hlim, hfine]

/-- Witness for C4: issuing to an unknown borrower id on the sample store
returns the user-not-found error with the store unchanged. -/
theorem claim_C4_issue_precondition_errors_witness :
    issueBook sampleSt 100 77 2 500 9 = (.userNotFound, sampleSt) :=
  (claim_C4_issue_precondition_errors sampleSt 100 77 2 500 9).1 (by decide)

/-! ### Claim C6 -/

/-- The loan record `Transaction.create` builds inside `issueBook`. -/
def newLoan (st : St) (now : Int) (userId bookId : Nat) (dueDate : Int)
    (staffId : Nat) : Transaction :=
  { id := st.nextId, userId := userId, bookId := bookId, issueDate := now,
    dueDate := dueDate, returnDate := none, fineAmount := 0,
    status := TxStatus.issued, issuedBy := staffId, returnedBy := none,
    notes := none }

/-- The store after a successful `issueBook`: the loan is created and the
book's `availableCopies` is decremented and saved. -/
def issueSuccessSt (st : St) (now : Int) (userId bookId : Nat) (dueDate : Int)
    (staffId : Nat) (book : Book) : St :=
  { st with
    transactions := newLoan st now userId bookId dueDate staffId :: st.transactions,
    nextId := st.nextId + 1,
    books := replaceById Book.id st.books bookId
      { book with availableCopies := book.availableCopies - 1 } }

/-- When every precondition passes (and the stored book is schema-valid),
`issueBook` succeeds and produces exactly the decremented store. -/
theorem issueBook_success (st : St) (now : Int) (userId bookId : Nat)
    (dueDate : Int) (staffId : Nat) (user : User) (book : Book)
    (hu : findUser st userId = some user) (hact : user.status = UserStatus.active)
    (hb : findBook st bookId = some book)
    (hcond : ¬ (book.availableCopies ≤ 0 ∨ book.status ≠ BookStatus.available))
    (hdup : (st.transactions.any fun t =>
      t.userId == userId && t.bookId == bookId && t.status == TxStatus.issued) = false)
    (hlim : ¬ (st.transactions.filter fun t =>
      t.userId == userId && t.status == TxStatus.issued).length
        ≥ borrowingLimit user.role)
    (hfine : (st.fines.any fun f =>
      f.userId == userId && f.paymentStatus == PayStatus.pending) = false)
    (hvb : validBook book = true) :
    issueBook st now userId bookId dueDate staffId
      = (.ok st.nextId, issueSuccessSt st now userId bookId dueDate staffId book) := by
  have hvt : validTransaction (newLoan st now userId bookId dueDate staffId) = true := by
    simp [validTransaction, newLoan]
  have hvb1 : validBook { book with availableCopies := book.availableCopies - 1 } = true := by
    simp only [validBook, Bool.and_eq_true, decide_eq_true_eq] at hvb ⊢
    push_neg at hcond
    refine ⟨⟨hvb.1.1, ?_⟩, ?_⟩ <;> omega
  have hvt' : validTransaction { id := st.nextId, userId := userId, bookId := bookId, issueDate := now, dueDate := dueDate, returnDate := none, fineAmount := 0, status := TxStatus.issued, issuedBy := staffId, returnedBy := none, notes := none } = true := hvt
  simp only [issueBook, hu, hb]
  rw [if_neg (by simp [hact]), if_neg hcond, if_pos hvt', if_pos hvb1]
  simp only [issueSuccessSt, newLoan]
  rw [if_neg (by simp [hdup]), if_neg hlim]
  rw [if_neg (by simp [hfine])]

/-- A store whose borrower has a single pending fine of amount 0. -/
def sampleStFineZero : St :=
  { users := [sampleUser], books := [sampleBook], transactions := [],
    fines := [{ id := 5, userId := 1, transactionId := 3, amount := 0,
                reason := FineReason.other, paymentStatus := PayStatus.pending,
                paymentDate := none, paymentMethod := none, processedBy := none,
                notes := none }],
    reservations := [], nextId := 10 }

/-- Claim C6 counterexample: a borrower whose only pending fine has amount 0
has outstanding total 0 (not non-zero), yet `issueBook` still fails with the
outstanding-fine error, because the controller gates on the existence of a
pending fine, not on the sum. -/
theorem claim_C6_counterexample :
    (issueBook sampleStFineZero 100 1 2 500 9).1 = IssueResult.outstandingFine ∧
    outstandingTotal sampleStFineZero 1 = 0 := by
  decide

/-- Claim C6 (amended): given the earlier preconditions pass, `issueBook`
fails with the outstanding-fine error exactly when the borrower has at least
one fine with `paymentStatus = pending` (equivalent to a non-zero
outstanding total only when every pending fine has positive amount); once no
pending fine remains — every one paid or waived — `issueBook` succeeds. -/
theorem claim_C6_amended_outstanding_fine_gate (st : St) (now : Int)
    (userId bookId : Nat) (dueDate : Int) (staffId : Nat) (user : User)
    (book : Book)
    (hu : findUser st userId = some user) (hact : user.status = UserStatus.active)
    (hb : findBook st bookId = some book)
    (hcond : ¬ (book.availableCopies ≤ 0 ∨ book.status ≠ BookStatus.available))
    (hdup : (st.transactions.any fun t =>
      t.userId == userId && t.bookId == bookId && t.status == TxStatus.issued) = false)
    (hlim : ¬ (st.transactions.filter fun t =>
      t.userId == userId && t.status == TxStatus.issued).length
        ≥ borrowingLimit user.role)
    (hvb : validBook book = true) :
    ((issueBook st now userId bookId dueDate staffId).1 = IssueResult.outstandingFine
      ↔ ∃ f ∈ st.fines, f.userId = userId ∧ f.paymentStatus = PayStatus.pending) ∧
    ((st.fines.any fun f =>
        f.userId == userId && f.paymentStatus == PayStatus.pending) = false →
      (issueBook st now userId bookId dueDate staffId).1 = IssueResult.ok st.nextId) := by
  have hgate : (st.fines.any fun f =>
      f.userId == userId && f.paymentStatus == PayStatus.pending) = true
      ↔ ∃ f ∈ st.fines, f.userId = userId ∧ f.paymentStatus = PayStatus.pending := by
    simp [List.any_eq_true]
  constructor
  · constructor
    · intro hres
      cases hfa : (st.fines.any fun f =>
          f.userId == userId && f.paymentStatus == PayStatus.pending) with
      | true => exact hgate.mp hfa
      | false =>
        rw [issueBook_success st now userId bookId dueDate staffId user book
          hu hact hb hcond hdup hlim hfa hvb] at hres
        exact absurd hres (by simp)
    · intro hex
      have hfa := hgate.mpr hex
      simp [issueBook, hu, hact, hb, hcond, hdup, hlim, hfa]
  · intro hfa
    rw [issueBook_success st now userId bookId dueDate staffId user book
      hu hact hb hcond hdup hlim hfa hvb]

/-- Witness for the amended C6: on the sample store with no fines, the gate
is equivalent to the (false) existence of a pending fine and issuing
succeeds. -/
theorem claim_C6_amended_outstanding_fine_gate_witness :
    ((issueBook sampleSt 100 1 2 500 9).1 = IssueResult.outstandingFine
      ↔ ∃ f ∈ sampleSt.fines, f.userId = 1 ∧ f.paymentStatus = PayStatus.pending) ∧
    ((sampleSt.fines.any fun f =>
        f.userId == 1 && f.paymentStatus == PayStatus.pending) = false →
      (issueBook sampleSt 100 1 2 500 9).1 = IssueResult.ok sampleSt.nextId) :=
  claim_C6_amended_outstanding_fine_gate sampleSt 100 1 2 500 9 sampleUser
    sampleBook (by decide) (by decide) (by decide) (by decide) (by decide)
    (by decide) (by decide)

/-! ### Claim C3 -/

/-- The fine record `Fine.create` builds inside `returnBook` for a late
return: reason `overdue`, amount `overdueDays × 1` (the $1/day policy). -/
def overdueFine (st : St) (tx : Transaction) (now : Int) : Fine :=
  { id := st.nextId, userId := tx.userId, transactionId := tx.id,
    amount := overdueDaysOf now tx.dueDate * 1, reason := FineReason.overdue,
    paymentStatus := PayStatus.pending, paymentDate := none,
    paymentMethod := none, processedBy := none, notes := none }

/-- Whatever happens to the book afterwards, the tail of `returnBook` leaves
the fines untouched and stores the closed transaction. -/
theorem finishReturn_state (st : St) (tx : Transaction) (now fa : Int)
    (staffId : Nat) (notes : String)
    (hvt : validTransaction { tx with returnDate := some now, status := TxStatus.returned, fineAmount := fa, returnedBy := some staffId, notes := some notes } = true) :
    (finishReturn st tx now fa staffId notes).2.fines = st.fines ∧
    (finishReturn st tx now fa staffId notes).2.transactions
      = replaceById Transaction.id st.transactions tx.id { tx with returnDate := some now, status := TxStatus.returned, fineAmount := fa, returnedBy := some staffId, notes := some notes } := by
  simp only [finishReturn]
  rw [if_pos hvt]
  split
  · exact ⟨rfl, rfl⟩
  split
  · exact ⟨rfl, rfl⟩
  · exact ⟨rfl, rfl⟩

/-- Claim C3: returning an issued loan creates no fine and stores
`fineAmount = 0` when `returnDate ≤ dueDate`; when `returnDate > dueDate` it
creates exactly one fine, reason `overdue`, of amount
`ceil((returnDate − dueDate) / 1 day) × 1` — in particular returning exactly
on the due date yields no fine and one day late yields exactly the daily
rate (see the witness). -/
theorem claim_C3_overdue_fine (st : St) (now : Int) (txId staffId : Nat)
    (notes : String) (tx : Transaction)
    (htx : findTransaction st txId = some tx) (hiss : tx.status = TxStatus.issued)
    (hdate : tx.issueDate ≤ now) :
    (now ≤ tx.dueDate →
      (returnBook st now txId staffId notes).2.fines = st.fines ∧
      ∃ tx', findTransaction (returnBook st now txId staffId notes).2 txId = some tx' ∧
        tx'.fineAmount = 0 ∧ tx'.status = TxStatus.returned) ∧
    (tx.dueDate < now →
      (returnBook st now txId staffId notes).2.fines
        = overdueFine st tx now :: st.fines ∧
      overdueDaysOf now tx.dueDate = (now - tx.dueDate + msPerDay - 1) / msPerDay) := by
  have htxid : tx.id = txId := findById_some_key htx
  constructor
  · intro hle
    have hvt : validTransaction { tx with returnDate := some now, status := TxStatus.returned, fineAmount := 0, returnedBy := some staffId, notes := some notes } = true := by
      simp [validTransaction, hdate]
    have hret : (returnBook st now txId staffId notes)
        = finishReturn st tx now 0 staffId notes := by
      simp only [returnBook, htx]
      rw [if_neg (by simp [hiss]), if_neg (by omega)]
    obtain ⟨hfines, htrans⟩ := finishReturn_state st tx now 0 staffId notes hvt
    refine ⟨by rw [hret]; exact hfines, ?_⟩
    refine ⟨{ tx with returnDate := some now, status := TxStatus.returned, fineAmount := 0, returnedBy := some staffId, notes := some notes }, ?_, rfl, rfl⟩
    rw [hret]
    show findById Transaction.id (finishReturn st tx now 0 staffId notes).2.transactions txId = _
    rw [htrans, htxid]
    exact findById_replaceById_self _ htx rfl
  · intro hlt
    have hnn : (0 : Int) ≤ overdueDaysOf now tx.dueDate * 1 := by
      rw [Int.mul_one]
      apply Int.ediv_nonneg
      · simp only [msPerDay]; omega
      · simp only [msPerDay]; omega
    have hvf : validFine { id := st.nextId, userId := tx.userId, transactionId := tx.id, amount := overdueDaysOf now tx.dueDate * 1, reason := FineReason.overdue, paymentStatus := PayStatus.pending, paymentDate := none, paymentMethod := none, processedBy := none, notes := none } = true := by
      simp only [validFine, Bool.and_eq_true, decide_eq_true_eq]
      refine ⟨by omega, trivial⟩
    have hvt : validTransaction { tx with returnDate := some now, status := TxStatus.returned, fineAmount := overdueDaysOf now tx.dueDate * 1, returnedBy := some staffId, notes := some notes } = true := by
      simp only [validTransaction, Bool.and_eq_true, decide_eq_true_eq]
      exact ⟨hdate, hnn⟩
    have hret : (returnBook st now txId staffId notes)
        = finishReturn { st with fines := overdueFine st tx now :: st.fines, nextId := st.nextId + 1 } tx now (overdueDaysOf now tx.dueDate * 1) staffId notes := by
      simp only [returnBook, htx]
      rw [if_neg (by simp [hiss]), if_pos hlt, if_pos hvf]
      rfl
    obtain ⟨hfines, _⟩ := finishReturn_state
      { st with fines := overdueFine st tx now :: st.fines, nextId := st.nextId + 1 }
      tx now (overdueDaysOf now tx.dueDate * 1) staffId notes hvt
    exact ⟨by rw [hret]; exact hfines, rfl⟩

/-- Witness for C3: returning the sample loan exactly on its due date stores
no fine, and returning exactly one day (86400000 ms) late creates the single
overdue fine of amount `1 × dailyRate = 1`. -/
theorem claim_C3_overdue_fine_witness :
    ((returnBook sampleStLoan 500 10 9 "").2.fines = sampleStLoan.fines ∧
      ∃ tx', findTransaction (returnBook sampleStLoan 500 10 9 "").2 10 = some tx' ∧
        tx'.fineAmount = 0 ∧ tx'.status = TxStatus.returned) ∧
    ((returnBook sampleStLoan (500 + msPerDay) 10 9 "").2.fines
        = overdueFine sampleStLoan sampleLoan (500 + msPerDay) :: sampleStLoan.fines ∧
      overdueDaysOf (500 + msPerDay) sampleLoan.dueDate
        = (500 + msPerDay - sampleLoan.dueDate + msPerDay - 1) / msPerDay) ∧
    (overdueFine sampleStLoan sampleLoan (500 + msPerDay)).amount = 1 :=
  ⟨(claim_C3_overdue_fine sampleStLoan 500 10 9 "" sampleLoan
      (by decide) (by decide) (by decide)).1 (by decide),
    (claim_C3_overdue_fine sampleStLoan (500 + msPerDay) 10 9 "" sampleLoan
      (by decide) (by decide) (by decide)).2 (by decide),
    by decide⟩

/-! ### Claim C9 -/

/-- The closed-loan record `returnBook` saves. -/
def closedLoan (tx : Transaction) (now fa : Int) (staffId : Nat)
    (notes : String) : Transaction :=
  { tx with returnDate := some now, status := TxStatus.returned,
            fineAmount := fa, returnedBy := some staffId, notes := some notes }

/-- The store after the tail of a fully successful `returnBook`: the closed
loan is stored and the book's `availableCopies` is incremented and saved. -/
def returnSuccessSt (st : St) (tx : Transaction) (now fa : Int)
    (staffId : Nat) (notes : String) (book : Book) : St :=
  { st with
    transactions := replaceById Transaction.id st.transactions tx.id
      (closedLoan tx now fa staffId notes),
    books := replaceById Book.id st.books tx.bookId
      { book with availableCopies := book.availableCopies + 1 } }

/-- When the closed loan and the incremented book both pass validation, the
tail of `returnBook` succeeds and produces exactly the incremented store. -/
theorem finishReturn_success (st : St) (tx : Transaction) (now fa : Int)
    (staffId : Nat) (notes : String) (book : Book)
    (hvt : validTransaction (closedLoan tx now fa staffId notes) = true)
    (hfb : findBook st tx.bookId = some book)
    (hvb2 : validBook { book with availableCopies := book.availableCopies + 1 } = true) :
    finishReturn st tx now fa staffId notes
      = (.ok fa, returnSuccessSt st tx now fa staffId notes book) := by
  have hvt' : validTransaction { tx with returnDate := some now, status := TxStatus.returned, fineAmount := fa, returnedBy := some staffId, notes := some notes } = true := hvt
  have hfb' : findBook { st with transactions := replaceById Transaction.id st.transactions tx.id { tx with returnDate := some now, status := TxStatus.returned, fineAmount := fa, returnedBy := some staffId, notes := some notes } } tx.bookId = some book := hfb
  simp only [finishReturn]
  rw [if_pos hvt']
  simp only [hfb']
  rw [if_pos hvb2]
  rfl

/-- Claim C9: issuing a book to an eligible borrower and returning it the
same day (`returnDate ≤ dueDate`) succeeds, reports fine amount zero, stores
the closed loan with `fineAmount = 0`, creates no fine record, and restores
the book — in particular its `availableCopies` — to its pre-issue value. -/
theorem claim_C9_round_trip (st : St) (now now2 : Int) (userId bookId : Nat)
    (dueDate : Int) (staffId staffId2 : Nat) (notes : String) (user : User)
    (book : Book)
    (hu : findUser st userId = some user) (hact : user.status = UserStatus.active)
    (hb : findBook st bookId = some book)
    (hcond : ¬ (book.availableCopies ≤ 0 ∨ book.status ≠ BookStatus.available))
    (hdup : (st.transactions.any fun t =>
      t.userId == userId && t.bookId == bookId && t.status == TxStatus.issued) = false)
    (hlim : ¬ (st.transactions.filter fun t =>
      t.userId == userId && t.status == TxStatus.issued).length
        ≥ borrowingLimit user.role)
    (hfine : (st.fines.any fun f =>
      f.userId == userId && f.paymentStatus == PayStatus.pending) = false)
    (hvb : validBook book = true)
    (h12 : now ≤ now2) (h2d : now2 ≤ dueDate) :
    issueBook st now userId bookId dueDate staffId
      = (.ok st.nextId, issueSuccessSt st now userId bookId dueDate staffId book) ∧
    (returnBook (issueSuccessSt st now userId bookId dueDate staffId book)
        now2 st.nextId staffId2 notes).1 = ReturnResult.ok 0 ∧
    (returnBook (issueSuccessSt st now userId bookId dueDate staffId book)
        now2 st.nextId staffId2 notes).2.fines = st.fines ∧
    findBook (returnBook (issueSuccessSt st now userId bookId dueDate staffId book)
        now2 st.nextId staffId2 notes).2 bookId = some book ∧
    (∃ tx', findTransaction (returnBook (issueSuccessSt st now userId bookId dueDate staffId book)
        now2 st.nextId staffId2 notes).2 st.nextId = some tx' ∧
      tx'.fineAmount = 0 ∧ tx'.status = TxStatus.returned) := by
  have hbid : book.id = bookId := findById_some_key hb
  have hissue := issueBook_success st now userId bookId dueDate staffId user book
    hu hact hb hcond hdup hlim hfine hvb
  have hftx : findTransaction (issueSuccessSt st now userId bookId dueDate staffId book)
      st.nextId = some (newLoan st now userId bookId dueDate staffId) := by
    show findById Transaction.id _ _ = _
    simp only [issueSuccessSt, findById]
    rw [List.find?_cons_of_pos _ (by simp [newLoan])]
  have hvt : validTransaction (closedLoan (newLoan st now userId bookId dueDate staffId)
      now2 0 staffId2 notes) = true := by
    simp [validTransaction, closedLoan, newLoan, h12]
  have hfb1 : findBook (issueSuccessSt st now userId bookId dueDate staffId book)
      ((newLoan st now userId bookId dueDate staffId).bookId)
      = some { book with availableCopies := book.availableCopies - 1 } := by
    show findById Book.id _ _ = _
    simp only [issueSuccessSt, newLoan]
    exact findById_replaceById_self _ hb hbid
  have hvb2 : validBook { book with availableCopies := book.availableCopies - 1 + 1 } = true := by
    simp only [validBook, Bool.and_eq_true, decide_eq_true_eq] at hvb ⊢
    refine ⟨⟨hvb.1.1, ?_⟩, ?_⟩ <;> omega
  have hret : returnBook (issueSuccessSt st now userId bookId dueDate staffId book)
      now2 st.nextId staffId2 notes
      = (ReturnResult.ok 0, returnSuccessSt
          (issueSuccessSt st now userId bookId dueDate staffId book)
          (newLoan st now userId bookId dueDate staffId) now2 0 staffId2 notes
          { book with availableCopies := book.availableCopies - 1 }) := by
    simp only [returnBook, hftx]
    rw [if_neg (by simp [newLoan]), if_neg (by simp only [newLoan]; omega)]
    exact finishReturn_success _ _ _ _ _ _ _ hvt hfb1 hvb2
  have hrestore : ({ book with availableCopies := book.availableCopies - 1 + 1 } : Book) = book := by
    have h : book.availableCopies - 1 + 1 = book.availableCopies := by omega
    rw [h]
  refine ⟨hissue, ?_, ?_, ?_, ?_⟩
  · rw [hret]
  · rw [hret]
    rfl
  · rw [hret]
    show findById Book.id _ _ = _
    have h1 : findById Book.id (replaceById Book.id st.books bookId { book with availableCopies := book.availableCopies - 1 }) bookId = some { book with availableCopies := book.availableCopies - 1 } :=
      findById_replaceById_self { book with availableCopies := book.availableCopies - 1 } hb hbid
    have h2 := findById_replaceById_self { book with availableCopies := book.availableCopies - 1 + 1 } h1 hbid
    exact h2.trans (congrArg some hrestore)
  · refine ⟨closedLoan (newLoan st now userId bookId dueDate staffId) now2 0 staffId2 notes, ?_, rfl, rfl⟩
    rw [hret]
    show findById Transaction.id _ _ = _
    exact findById_replaceById_self
      (closedLoan (newLoan st now userId bookId dueDate staffId) now2 0 staffId2 notes) hftx rfl

/-- Witness for C9: issuing the single copy of the sample book at time 100
and returning it at time 400 (due 500) restores the store's book and leaves
no fine. -/
theorem claim_C9_round_trip_witness :
    issueBook sampleSt 100 1 2 500 9
      = (.ok sampleSt.nextId, issueSuccessSt sampleSt 100 1 2 500 9 sampleBook) ∧
    (returnBook (issueSuccessSt sampleSt 100 1 2 500 9 sampleBook)
        400 sampleSt.nextId 9 "").1 = ReturnResult.ok 0 ∧
    (returnBook (issueSuccessSt sampleSt 100 1 2 500 9 sampleBook)
        400 sampleSt.nextId 9 "").2.fines = sampleSt.fines ∧
    findBook (returnBook (issueSuccessSt sampleSt 100 1 2 500 9 sampleBook)
        400 sampleSt.nextId 9 "").2 2 = some sampleBook ∧
    (∃ tx', findTransaction (returnBook (issueSuccessSt sampleSt 100 1 2 500 9 sampleBook)
        400 sampleSt.nextId 9 "").2 sampleSt.nextId = some tx' ∧
      tx'.fineAmount = 0 ∧ tx'.status = TxStatus.returned) :=
  claim_C9_round_trip sampleSt 100 400 1 2 500 9 9 "" sampleUser sampleBook
    (by decide) (by decide) (by decide) (by decide) (by decide) (by decide)
    (by decide) (by decide) (by decide) (by decide)

end LibMgt

